import Mathlib

/-!
Shallow embedding of `src/gfagraphs/gfagraphs.py` (the gfagraphs library).

Modelling conventions:
* Python `dict`s holding the per-record fields (`datas`) are modelled as
  insertion-ordered association lists `List (String × PyVal)`; assignment
  `d[k] = v` overwrites in place (keeping the key's position) or appends.
* Python exceptions are modelled with `Except String` for pure helpers, and
  mutating `Graph` methods return `Graph × Option String`: the graph component
  is the state of the object at the moment the method returns or raises
  (Python leaves all mutations performed so far visible when it raises).
* Python `int` is `Int`; `str` is `String` (worked on as `List Char` where
  character-level manipulation is needed, since the source indexes/slices).
* Python `float` is modelled by its `repr` string (`PyFloat`): Python
  guarantees `float(repr(x)) == x` and distinct floats have distinct reprs,
  so floats are in bijection with their canonical reprs; no float arithmetic
  occurs in the source code modelled here.
* JSON values (`json.loads` results) are the inductive `JsonVal`; fractional
  JSON numbers and string-escape processing are not modelled (no claim
  exercises them).
* The `networkx` graph and color bookkeeping of the source (`compute_networkx`,
  `get_palette`) are visualization-only and out of the modelled scope.
-/

namespace gfagraphs

/-- ASCII decimal digit test, as used for the regex class `\d` / `\D` of the
source (segment names are produced with `sub('\D', '', ...)`). -/
def isDigitChar (c : Char) : Bool := '0' ≤ c && c ≤ '9'

/-- ASCII uppercase test, for the regex class `[A-Z]` of the tag pattern. -/
def isUpperAlpha (c : Char) : Bool := 'A' ≤ c && c ≤ 'Z'

/-- ASCII letter test, for the regex class `[a-zA-Z]` of the tag pattern. -/
def isAsciiAlpha (c : Char) : Bool := ('A' ≤ c && c ≤ 'Z') || ('a' ≤ c && c ≤ 'z')

/-- Numeric value of a decimal digit character. -/
def digitVal (c : Char) : Nat := c.toNat - 48

/-- Fueled digit loop: the fuel only bounds the recursion depth (any fuel
greater than `n` is sufficient, since the quotient shrinks every step). -/
def natDigitsGo : Nat → Nat → List Char
  | 0, _ => []
  | fuel + 1, n =>
    if n < 10 then [Char.ofNat (48 + n)]
    else natDigitsGo fuel (n / 10) ++ [Char.ofNat (48 + n % 10)]

/-- Decimal digits of a natural number, most significant first
(the digit string Python's `str` produces for a non-negative `int`). -/
def natDigits (n : Nat) : List Char := natDigitsGo (n + 1) n

/-- Decimal representation of a natural number as a string. -/
def natRepr (n : Nat) : String := String.mk (natDigits n)

/-- Accumulator loop of decimal parsing: consume digit characters. -/
def natParseGo : List Char → Nat → Option Nat
  | [], acc => some acc
  | c :: cs, acc =>
    if isDigitChar c then natParseGo cs (acc * 10 + digitVal c) else none

/-- Parse a non-empty all-digit character list as a natural number. -/
def natParseChars (cs : List Char) : Option Nat :=
  match cs with
  | [] => none
  | _ => natParseGo cs 0

/-- Python `str` of an `int` (decimal, with a leading `-` when negative). -/
def intReprStr (n : Int) : String :=
  if n < 0 then "-" ++ natRepr n.natAbs else natRepr n.toNat

/-- Python `int(...)` applied to a string: optional leading `-` then decimal
digits.  (Python additionally accepts surrounding whitespace and a leading
`+`; those forms never arise in this development and are not modelled.) -/
def intParseChars (cs : List Char) : Option Int :=
  match cs with
  | [] => none
  | c :: rest =>
    if c = '-' then (natParseChars rest).map (fun m => -(m : Int))
    else (natParseChars cs).map (fun m => (m : Int))

/-- Python `int(...)` on a `String`. -/
def intParse (s : String) : Option Int := intParseChars s.toList

/-- JSON-like structured values, the results of `json.loads`. -/
inductive JsonVal where
  | jnull : JsonVal
  | jbool : Bool → JsonVal
  | jint : Int → JsonVal
  | jstr : String → JsonVal
  | jarr : List JsonVal → JsonVal
  | jobj : List (String × JsonVal) → JsonVal
deriving Repr

/-- Python floats, identified with their canonical `repr` strings (see the
module comment). -/
structure PyFloat where
  repr : String
deriving Repr, DecidableEq

/-- Orientation of a node traversal, `Orientation` of the source. -/
inductive Orientation where
  | FORWARD : Orientation
  | REVERSE : Orientation
deriving Repr, DecidableEq, BEq

/-- Python `Orientation(value)`: `'+'` is FORWARD, `'-'` is REVERSE, anything
else raises `ValueError`. -/
def orientationOfChar (c : Char) : Except String Orientation :=
  if c = '+' then .ok .FORWARD
  else if c = '-' then .ok .REVERSE
  else .error "ValueError: not a valid Orientation"

/-- Python `Orientation(value)` on a one-character string (as used on the
`orient` variable of `split_segments`). -/
def orientationOfStr (s : String) : Except String Orientation :=
  match s.toList with
  | [c] => orientationOfChar c
  | _ => .error "ValueError: not a valid Orientation"

/-- Values stored in a record's `datas` dictionary.  `path` is the ordered
list of `(segment name, orientation)` pairs stored under the `path` key of
Path/Walk records. -/
inductive PyVal where
  | int : Int → PyVal
  | float : PyFloat → PyVal
  | str : String → PyVal
  | json : JsonVal → PyVal
  | path : List (String × Orientation) → PyVal
deriving Repr

mutual

/-- Structural equality of JSON values (Python `==` on `loads` results).
Cross-type numeric equality (`1 == 1.0`) cannot arise for `loads` results
here since JSON floats are not modelled. -/
def jsonBeq : JsonVal → JsonVal → Bool
  | .jnull, .jnull => true
  | .jbool a, .jbool b => a == b
  | .jint a, .jint b => a == b
  | .jstr a, .jstr b => a == b
  | .jarr a, .jarr b => jsonListBeq a b
  | .jobj a, .jobj b => jsonObjBeq a b
  | _, _ => false

/-- Elementwise equality of JSON lists. -/
def jsonListBeq : List JsonVal → List JsonVal → Bool
  | [], [] => true
  | a :: as_, b :: bs => jsonBeq a b && jsonListBeq as_ bs
  | _, _ => false

/-- Orderwise equality of JSON objects (Python dicts compare unordered, but
equal-order comparison is all that occurs in this development). -/
def jsonObjBeq : List (String × JsonVal) → List (String × JsonVal) → Bool
  | [], [] => true
  | (k1, v1) :: as_, (k2, v2) :: bs => k1 == k2 && jsonBeq v1 v2 && jsonObjBeq as_ bs
  | _, _ => false

end

/-- Python `==` between two field values.  Distinct constructors compare
unequal (Python's cross-type `int == float` equality is not modelled; field
comparisons in the source only ever involve segment-name strings). -/
def pyEq : PyVal → PyVal → Bool
  | .int a, .int b => a == b
  | .float a, .float b => a.repr == b.repr
  | .str a, .str b => a == b
  | .json a, .json b => jsonBeq a b
  | .path a, .path b => a == b
  | _, _ => false

/-- Opening curly brace character (written via its code point to keep brace
characters out of the source text). -/
def lbrace : Char := Char.ofNat 123

/-- Closing curly brace character. -/
def rbrace : Char := Char.ofNat 125

/-- Whitespace skipped by the JSON decoder. -/
def jsonSkipWs (cs : List Char) : List Char :=
  cs.dropWhile (fun c => c == ' ' || c == '\t' || c == '\n' || c == '\r')

/-- Scan a JSON string body up to the closing double quote (escape sequences
are not modelled; a backslash is rejected). -/
def jsonScanString : List Char → Except String (List Char × List Char)
  | [] => .error "JSONDecodeError: unterminated string"
  | c :: cs =>
    if c == '"' then .ok ([], cs)
    else if c == '\\' then .error "JSONDecodeError: string escapes not modelled"
    else (jsonScanString cs).map (fun p => (c :: p.1, p.2))

/-- Scan an integer JSON number (fractional and exponent forms, which decode
to Python floats, are not modelled). -/
def jsonScanNumber (cs : List Char) : Except String (JsonVal × List Char) :=
  match cs with
  | '-' :: rest =>
    match natParseChars (rest.takeWhile isDigitChar) with
    | none => .error "JSONDecodeError: Expecting value"
    | some n =>
      match rest.dropWhile isDigitChar with
      | '.' :: _ => .error "JSONDecodeError: JSON floats not modelled"
      | 'e' :: _ => .error "JSONDecodeError: JSON floats not modelled"
      | 'E' :: _ => .error "JSONDecodeError: JSON floats not modelled"
      | rest2 => .ok (.jint (-(n : Int)), rest2)
  | _ =>
    match natParseChars (cs.takeWhile isDigitChar) with
    | none => .error "JSONDecodeError: Expecting value"
    | some n =>
      match cs.dropWhile isDigitChar with
      | '.' :: _ => .error "JSONDecodeError: JSON floats not modelled"
      | 'e' :: _ => .error "JSONDecodeError: JSON floats not modelled"
      | 'E' :: _ => .error "JSONDecodeError: JSON floats not modelled"
      | rest2 => .ok (.jint (n : Int), rest2)

mutual

/-- Fueled recursive-descent JSON value parser (the core of `json.loads`). -/
def jsonParseVal (fuel : Nat) (cs0 : List Char) : Except String (JsonVal × List Char) :=
  match fuel with
  | 0 => .error "JSONDecodeError: fuel"
  | fuel + 1 =>
    match jsonSkipWs cs0 with
    | [] => .error "JSONDecodeError: Expecting value"
    | c :: cs =>
      if c == '"' then (jsonScanString cs).map (fun p => (.jstr (String.mk p.1), p.2))
      else if c == '[' then jsonParseArrItems fuel cs true
      else if c == lbrace then jsonParseObjItems fuel cs true
      else if c == 'n' then
        match cs with
        | 'u' :: 'l' :: 'l' :: rest => .ok (.jnull, rest)
        | _ => .error "JSONDecodeError: Expecting value"
      else if c == 't' then
        match cs with
        | 'r' :: 'u' :: 'e' :: rest => .ok (.jbool true, rest)
        | _ => .error "JSONDecodeError: Expecting value"
      else if c == 'f' then
        match cs with
        | 'a' :: 'l' :: 's' :: 'e' :: rest => .ok (.jbool false, rest)
        | _ => .error "JSONDecodeError: Expecting value"
      else if c == '-' || isDigitChar c then jsonScanNumber (c :: cs)
      else .error "JSONDecodeError: Expecting value"

/-- Parse the items of a JSON array after the opening bracket; `first` is
true before the first item has been read. -/
def jsonParseArrItems (fuel : Nat) (cs0 : List Char) (first : Bool) : Except String (JsonVal × List Char) :=
  match fuel with
  | 0 => .error "JSONDecodeError: fuel"
  | fuel + 1 =>
    match jsonSkipWs cs0 with
    | ']' :: rest =>
      if first then .ok (.jarr [], rest)
      else .error "JSONDecodeError: Expecting value"
    | cs =>
      match jsonParseVal fuel cs with
      | .error e => .error e
      | .ok (v, rest) =>
        match jsonSkipWs rest with
        | ',' :: rest2 =>
          match jsonParseArrItems fuel rest2 false with
          | .ok (.jarr vs, rest3) => .ok (.jarr (v :: vs), rest3)
          | .ok _ => .error "JSONDecodeError: impossible"
          | .error e => .error e
        | ']' :: rest2 => .ok (.jarr [v], rest2)
        | _ => .error "JSONDecodeError: Expecting comma"

/-- Parse the members of a JSON object after the opening brace. -/
def jsonParseObjItems (fuel : Nat) (cs0 : List Char) (first : Bool) : Except String (JsonVal × List Char) :=
  match fuel with
  | 0 => .error "JSONDecodeError: fuel"
  | fuel + 1 =>
    match jsonSkipWs cs0 with
    | [] => .error "JSONDecodeError: Expecting property name enclosed in double quotes"
    | c :: rest =>
      if c == rbrace && first then .ok (.jobj [], rest)
      else if c == '"' then
        match jsonScanString rest with
        | .error e => .error e
        | .ok (key, rest2) =>
          match jsonSkipWs rest2 with
          | ':' :: rest3 =>
            match jsonParseVal fuel rest3 with
            | .error e => .error e
            | .ok (v, rest4) =>
              match jsonSkipWs rest4 with
              | ',' :: rest5 =>
                match jsonParseObjItems fuel rest5 false with
                | .ok (.jobj kvs, rest6) => .ok (.jobj ((String.mk key, v) :: kvs), rest6)
                | .ok _ => .error "JSONDecodeError: impossible"
                | .error e => .error e
              | c2 :: rest5 =>
                if c2 == rbrace then .ok (.jobj [(String.mk key, v)], rest5)
                else .error "JSONDecodeError: Expecting comma"
              | _ => .error "JSONDecodeError: Expecting comma"
          | _ => .error "JSONDecodeError: Expecting colon"
      else .error "JSONDecodeError: Expecting property name enclosed in double quotes"

end

/-- Python `json.loads` on a string. -/
def loads (s : String) : Except String JsonVal :=
  match jsonParseVal (s.toList.length + 1) s.toList with
  | .error e => .error e
  | .ok (v, rest) =>
    match jsonSkipWs rest with
    | [] => .ok v
    | _ => .error "JSONDecodeError: Extra data"

mutual

/-- Python `str`/`repr` of a `json.loads` result (note: NOT `json.dumps` —
dict and string reprs use single quotes, `None`/`True`/`False` spellings). -/
def jsonPyRepr : JsonVal → String
  | .jnull => "None"
  | .jbool true => "True"
  | .jbool false => "False"
  | .jint n => intReprStr n
  | .jstr s => "'" ++ s ++ "'"
  | .jarr xs => "[" ++ jsonPyReprList xs ++ "]"
  | .jobj kvs => String.mk [lbrace] ++ jsonPyReprObj kvs ++ String.mk [rbrace]

/-- Comma-separated reprs of JSON list items. -/
def jsonPyReprList : List JsonVal → String
  | [] => ""
  | [x] => jsonPyRepr x
  | x :: xs => jsonPyRepr x ++ ", " ++ jsonPyReprList xs

/-- Comma-separated `'key': value` reprs of JSON object members. -/
def jsonPyReprObj : List (String × JsonVal) → String
  | [] => ""
  | [(k, v)] => "'" ++ k ++ "': " ++ jsonPyRepr v
  | (k, v) :: kvs => "'" ++ k ++ "': " ++ jsonPyRepr v ++ ", " ++ jsonPyReprObj kvs

end

/-- Python `repr` of an `Orientation` enum member. -/
def orientationPyRepr : Orientation → String
  | .FORWARD => "<Orientation.FORWARD: '+'>"
  | .REVERSE => "<Orientation.REVERSE: '-'>"

/-- Python `str(value)` as interpolated by the source's f-strings. -/
def pyStr : PyVal → String
  | .int n => intReprStr n
  | .float f => f.repr
  | .str s => s
  | .json j => jsonPyRepr j
  | .path p =>
    "[" ++ String.intercalate ", "
      (p.map (fun nv => "('" ++ nv.1 ++ "', " ++ orientationPyRepr nv.2 ++ ")")) ++ "]"

/-- Source `gtype`, fused with the application of the returned cast: decode
`raw` as a value of the GFA tag type `tag_type` (`i`, `f`, `A`, `Z`, `J`;
`H`/`B` raise `NotImplementedError`; anything else `ValueError`). -/
def gtype (tag_type : Char) (raw : String) : Except String PyVal :=
  if tag_type == 'i' then
    match intParse raw with
    | some n => .ok (.int n)
    | none => .error "ValueError: invalid literal for int"
  else if tag_type == 'f' then .ok (.float ⟨raw⟩)
  else if tag_type == 'A' || tag_type == 'Z' then .ok (.str raw)
  else if tag_type == 'J' then (loads raw).map .json
  else if tag_type == 'H' || tag_type == 'B' then .error "NotImplementedError"
  else .error "ValueError: Type identifier is not in the GFA standard"

/-- Source `dtype`: infer the GFA tag type letter of a value (int to `i`,
float to `f`, str to `Z`, JSON-encodable to `J`).  A path value (a list of
pairs containing `Orientation` members) makes `json.dumps` raise, hence
`ValueError`. -/
def dtype : PyVal → Except String Char
  | .int _ => .ok 'i'
  | .float _ => .ok 'f'
  | .str _ => .ok 'Z'
  | .json _ => .ok 'J'
  | .path _ => .error "ValueError: Type is not in the GFA standard"

/-- Dictionary lookup `d[k]` (as an `Option`; callers that raise `KeyError`
match on `none`). -/
def dget : List (String × PyVal) → String → Option PyVal
  | [], _ => none
  | (k1, v) :: t, k => if k1 == k then some v else dget t k

/-- Dictionary assignment `d[k] = v`: overwrite in place keeping the key's
insertion position, or append a new key. -/
def dset : List (String × PyVal) → String → PyVal → List (String × PyVal)
  | [], k, v => [(k, v)]
  | (k1, v1) :: t, k, v =>
    if k1 == k then (k1, v) :: t else (k1, v1) :: dset t k v

/-- Python `k in d`. -/
def dmem (d : List (String × PyVal)) (k : String) : Bool := (dget d k).isSome

/-- Python dict merge of two literals as in the parsers'
`return` statements (second dict's entries update/extend the first). -/
def dmerge (a b : List (String × PyVal)) : List (String × PyVal) :=
  b.foldl (fun d kv => dset d kv.1 kv.2) a

/-- Test whether a trailing token matches the tag pattern
`[A-Z]{2}:[a-zA-Z]{1}:` anchored at the start (the `re.match` of
`supplementary_datas`). -/
def tagMatch (t : String) : Bool :=
  match t.toList with
  | c1 :: c2 :: c3 :: c4 :: c5 :: _ =>
    isUpperAlpha c1 && isUpperAlpha c2 && c3 == ':' && isAsciiAlpha c4 && c5 == ':'
  | _ => false

/-- The two-letter key of a tag token (`additional_tag[:2]`). -/
def tagKey (t : String) : String := String.mk (t.toList.take 2)

/-- The type letter of a tag token (`additional_tag[3]`). -/
def tagTypeChar (t : String) : Char := t.toList.getD 3 ' '

/-- The value text of a tag token (`additional_tag[5:]`). -/
def tagValue (t : String) : String := String.mk (t.toList.drop 5)

/-- Loop of `supplementary_datas` over the trailing tokens, threading the
`nargs` counter and the mapping being built. -/
def supp_go : List String → Nat → List (String × PyVal) → Except String (List (String × PyVal))
  | [], _, m => .ok m
  | t :: ts, nargs, m =>
    if tagMatch t then
      match gtype (tagTypeChar t) (tagValue t) with
      | .error e => .error e
      | .ok v => supp_go ts nargs (dset m (tagKey t) v)
    else supp_go ts (nargs + 1) (dset m ("ARG" ++ natRepr nargs) (.str t))

/-- Source `supplementary_datas`: compute the optional-tag mapping of the
trailing tokens beyond position `length_condition`. -/
def supplementary_datas (datas : List String) (length_condition : Nat) : Except String (List (String × PyVal)) :=
  supp_go (datas.drop length_condition) length_condition []

/-- The GFA sub-format descriptors of the source's `GfaStyle` enum. -/
inductive GfaStyle where
  | RGFA : GfaStyle
  | GFA1 : GfaStyle
  | GFA1_1 : GfaStyle
  | GFA1_2 : GfaStyle
  | GFA2 : GfaStyle
  | UNK : GfaStyle
deriving Repr, DecidableEq, BEq

/-- Python `GfaStyle(value)` from the enum's string values (`ValueError` on
anything else). -/
def gfaStyleOfStr (s : String) : Except String GfaStyle :=
  if s == "rGFA" then .ok .RGFA
  else if s == "GFA1" then .ok .GFA1
  else if s == "GFA1.1" then .ok .GFA1_1
  else if s == "GFA1.2" then .ok .GFA1_2
  else if s == "GFA2" then .ok .GFA2
  else if s == "unknown" then .ok .UNK
  else .error "ValueError: not a valid GfaStyle"

/-- Record kinds (the `Header`/`Segment`/`Line`/... marker classes that
`LineType` maps the leading character to). -/
inductive LineKind where
  | Header : LineKind
  | Segment : LineKind
  | Line : LineKind
  | Containment : LineKind
  | Path : LineKind
  | Walk : LineKind
  | Jump : LineKind
  | Other : LineKind
deriving Repr, DecidableEq, BEq

/-- A parsed GFA record: its `datas` field mapping.  (The source's `Record`
also stores the declared `GfaStyle` and the `LineType`; neither is read
after construction anywhere in the modelled code, and the record's kind is
recorded by which `Graph` list it is partitioned into.) -/
structure Rec where
  datas : List (String × PyVal)
deriving Repr

/-- Python `str.split(sep)` loop over characters. -/
def splitOnCharGo (c : Char) : List Char → List Char → List (List Char)
  | [], acc => [acc.reverse]
  | x :: xs, acc =>
    if x == c then acc.reverse :: splitOnCharGo c xs []
    else splitOnCharGo c xs (x :: acc)

/-- Python `str.split(sep)` for a one-character separator (note
`"".split(sep) == [""]`). -/
def splitOnChar (c : Char) (s : List Char) : List (List Char) :=
  splitOnCharGo c s []

/-- Python `str.strip('\n')`: remove leading and trailing newline
characters. -/
def stripNewlines (s : String) : List Char :=
  ((s.toList.dropWhile (· == '\n')).reverse.dropWhile (· == '\n')).reverse

/-- Python `sub('\D', '', s)`: keep only the decimal digits of `s`. -/
def subNonDigits (s : String) : String := String.mk (s.toList.filter isDigitChar)

/-- Source `default`: field parser for unrecognized leading characters
(rejected under rGFA, otherwise only extra fields, starting at index 0). -/
def defaultLine (datas : List String) (gfa_style : GfaStyle) : Except String (List (String × PyVal)) :=
  if gfa_style == .RGFA then
    .error "ValueError: Incompatible version format (H-lines absent from rGFA)"
  else supplementary_datas datas 0

/-- Source `header`: H-line field parser (rejected under rGFA; only extra
fields, starting at index 1). -/
def header (datas : List String) (gfa_style : GfaStyle) : Except String (List (String × PyVal)) :=
  if gfa_style == .RGFA then
    .error "ValueError: Incompatible version format (H-lines absent from rGFA)"
  else supplementary_datas datas 1

/-- Source `segment`: S-line field parser.  `name` is the digits of field 1,
`length` the character count of field 2, and `seq` is stored only when the
`ws` (with-sequence) option is set. -/
def segment (datas : List String) (_gfa_style : GfaStyle) (ws : Bool) : Except String (List (String × PyVal)) :=
  match datas[1]? with
  | none => .error "IndexError: list index out of range"
  | some d1 =>
    match datas[2]? with
    | none => .error "IndexError: list index out of range"
    | some d2 =>
      let line_datas : List (String × PyVal) :=
        [("name", .str (subNonDigits d1)), ("length", .int (d2.length : Int))]
      let line_datas :=
        if ws then line_datas ++ [("seq", .str d2)] else line_datas
      (supplementary_datas datas 3).map (fun supp => dmerge line_datas supp)

/-- Source `line`: L-line field parser.  Endpoints are the digits of fields
1 and 3 stored under `start` and `end`; the two orientation fields are glued
into one `from/to` string. -/
def line (datas : List String) (_gfa_style : GfaStyle) : Except String (List (String × PyVal)) :=
  match datas[1]?, datas[3]?, datas[2]?, datas[4]? with
  | some d1, some d3, some d2, some d4 =>
    let line_datas : List (String × PyVal) :=
      [("start", .str (subNonDigits d1)), ("end", .str (subNonDigits d3)),
        ("orientation", .str (d2 ++ "/" ++ d4))]
    (supplementary_datas datas 5).map (fun supp => dmerge line_datas supp)
  | _, _, _, _ => .error "IndexError: list index out of range"

/-- Source `containment`: C-line field parser (rejected under rGFA;
only extra fields, starting at index 1). -/
def containment (datas : List String) (gfa_style : GfaStyle) : Except String (List (String × PyVal)) :=
  if gfa_style == .RGFA then
    .error "ValueError: Incompatible version format (C-lines absent from rGFA)"
  else supplementary_datas datas 1

/-- Parse one comma-separated P-line path token: the orientation is the last
character, the name everything before it. -/
def parsePathToken (tok : List Char) : Except String (String × Orientation) :=
  match tok.getLast? with
  | none => .error "IndexError: string index out of range"
  | some c => (orientationOfChar c).map (fun o => (String.mk tok.dropLast, o))

/-- Source `path`: P-line field parser. -/
def path (datas : List String) (gfa_style : GfaStyle) : Except String (List (String × PyVal)) :=
  if gfa_style == .RGFA then
    .error "ValueError: Incompatible version format (P-lines absent from rGFA)"
  else
    match datas[1]? with
    | none => .error "IndexError: list index out of range"
    | some d1 =>
      match datas[2]? with
      | none => .error "IndexError: list index out of range"
      | some d2 =>
        match (splitOnChar ',' d2.toList).mapM parsePathToken with
        | .error e => .error e
        | .ok nodes =>
          (supplementary_datas datas 7).map (fun supp =>
            dmerge [("name", .str d1), ("path", .path nodes)] supp)

/-- Replace each `>` by `,+` and each `<` by `,-` in a W-line walk string
(the chained `str.replace` calls of the source). -/
def walkExpand (cs : List Char) : List Char :=
  cs.flatMap (fun c =>
    if c == '>' then [',', '+']
    else if c == '<' then [',', '-']
    else [c])

/-- Parse one expanded W-line walk token: the orientation marker is the
first character, the name the rest. -/
def parseWalkToken (tok : List Char) : Except String (String × Orientation) :=
  match tok with
  | [] => .error "IndexError: string index out of range"
  | c :: rest => (orientationOfChar c).map (fun o => (String.mk rest, o))

/-- Source `walk`: W-line field parser (rejected under rGFA and GFA1). -/
def walk (datas : List String) (gfa_style : GfaStyle) : Except String (List (String × PyVal)) :=
  if gfa_style == .RGFA || gfa_style == .GFA1 then
    .error "ValueError: Incompatible version format (W-lines absent before GFA1.1)"
  else
    match datas[3]?, datas[2]?, datas[1]?, datas[4]?, datas[5]?, datas[6]? with
    | some d3, some d2, some d1, some d4, some d5, some d6 =>
      match intParse d2 with
      | none => .error "ValueError: invalid literal for int"
      | some origin =>
        match (splitOnChar ',' ((walkExpand d6.toList).drop 1)).mapM parseWalkToken with
        | .error e => .error e
        | .ok nodes =>
          (supplementary_datas datas 7).map (fun supp =>
            dmerge
              [("id", .str d3), ("origin", .int origin), ("name", .str d1),
                ("start_offset", .str d4), ("stop_offset", .str d5),
                ("path", .path nodes)] supp)
    | _, _, _, _, _, _ => .error "IndexError: list index out of range"

/-- Source `jump`: J-line field parser (rejected under rGFA, GFA1 and
GFA1.1; only extra fields, starting at index 1). -/
def jump (datas : List String) (gfa_style : GfaStyle) : Except String (List (String × PyVal)) :=
  if gfa_style == .RGFA || gfa_style == .GFA1 || gfa_style == .GFA1_1 then
    .error "ValueError: Incompatible version format (J-lines absent before GFA1.2)"
  else supplementary_datas datas 1

/-- The `LineType` dispatch table: leading character to kind and parser,
combined with `Record.__init__` (strip the newline, split on tabs, resolve
the declared style, dispatch on the first character). -/
def mkRecord (gfa_data_line : String) (gfa_type : String) (ws : Bool) : Except String (LineKind × Rec) :=
  let datas := (splitOnChar '\t' (stripNewlines gfa_data_line)).map String.mk
  match gfaStyleOfStr gfa_type with
  | .error e => .error e
  | .ok style =>
    match gfa_data_line.toList[0]? with
    | none => .error "IndexError: string index out of range"
    | some c0 =>
      let step : LineKind × Except String (List (String × PyVal)) :=
        if c0 == 'H' then (.Header, header datas style)
        else if c0 == 'S' then (.Segment, segment datas style ws)
        else if c0 == 'L' then (.Line, line datas style)
        else if c0 == 'C' then (.Containment, containment datas style)
        else if c0 == 'P' then (.Path, path datas style)
        else if c0 == 'W' then (.Walk, walk datas style)
        else if c0 == 'J' then (.Jump, jump datas style)
        else (.Other, defaultLine datas style)
      match step.2 with
      | .error e => .error e
      | .ok d => .ok (step.1, ⟨d⟩)

/-- The `Graph` aggregate: declared style plus the per-kind record lists
(the `networkx` graph and the color table of the source are
visualization-only and not modelled). -/
structure Graph where
  version : GfaStyle
  headers : List Rec
  segments : List Rec
  lines : List Rec
  containment : List Rec
  paths : List Rec
  walks : List Rec
  jumps : List Rec
  others : List Rec
deriving Repr

/-- Source `Graph.__init__`: parse every line of the input (all-or-nothing)
and partition the records by kind, preserving file order within each kind.
The file is supplied as its list of lines. -/
def loadGraph (gfa_lines : List String) (gfa_type : String) (with_sequence : Bool) : Except String Graph :=
  match gfaStyleOfStr gfa_type with
  | .error e => .error e
  | .ok version =>
    match gfa_lines.mapM (fun l => mkRecord l gfa_type with_sequence) with
    | .error e => .error e
    | .ok recs =>
      .ok
        { version := version
          headers := (recs.filter (fun r => r.1 == .Header)).map (fun r => r.2)
          segments := (recs.filter (fun r => r.1 == .Segment)).map (fun r => r.2)
          lines := (recs.filter (fun r => r.1 == .Line)).map (fun r => r.2)
          containment := (recs.filter (fun r => r.1 == .Containment)).map (fun r => r.2)
          paths := (recs.filter (fun r => r.1 == .Path)).map (fun r => r.2)
          walks := (recs.filter (fun r => r.1 == .Walk)).map (fun r => r.2)
          jumps := (recs.filter (fun r => r.1 == .Jump)).map (fun r => r.2)
          others := (recs.filter (fun r => r.1 == .Other)).map (fun r => r.2) }

/-- Scan loop of `get_segment` / `get_segment_position`: compare each
record's `name` field (reading it raises `KeyError` when absent) against the
queried name, returning the first matching index. -/
def get_segment_position_go : List Rec → String → Nat → Except String Nat
  | [], node, _ => .error ("ValueError: Node " ++ node ++ " is not in graph.")
  | r :: rs, node, i =>
    match dget r.datas "name" with
    | none => .error "KeyError: name"
    | some v =>
      if pyEq v (.str node) then .ok i else get_segment_position_go rs node (i + 1)

/-- Source `Graph.get_segment_position`. -/
def get_segment_position (g : Graph) (node : String) : Except String Nat :=
  get_segment_position_go g.segments node 0

/-- Source `Graph.get_segment` (via the position of the first match). -/
def get_segment (g : Graph) (node : String) : Except String Rec :=
  match get_segment_position g node with
  | .error e => .error e
  | .ok i =>
    match g.segments[i]? with
    | some r => .ok r
    | none => .error "IndexError: list index out of range"

/-- Source `Graph.get_path_list`: the concatenation `paths + walks`. -/
def get_path_list (g : Graph) : List Rec := g.paths ++ g.walks

/-- One membership test of the `get_edges` comprehension:
`node == edge.datas['start'] or node == edge.datas['stop']`.  The `or`
short-circuits, so the `stop` key (absent on records parsed from L-lines,
which store `end` instead) is only read when the `start` comparison fails. -/
def edge_touches (node : PyVal) (r : Rec) : Except String Bool :=
  match dget r.datas "start" with
  | none => .error "KeyError: start"
  | some s =>
    if pyEq node s then .ok true
    else
      match dget r.datas "stop" with
      | none => .error "KeyError: stop"
      | some t2 => .ok (pyEq node t2)

/-- Loop of the `get_edges` comprehension. -/
def get_edges_go (node : PyVal) : List Rec → Except String (List Rec)
  | [] => .ok []
  | r :: rs =>
    match edge_touches node r with
    | .error e => .error e
    | .ok b => (get_edges_go node rs).map (fun l => if b then r :: l else l)

/-- Source `Graph.get_edges`. -/
def get_edges (g : Graph) (node : PyVal) : Except String (List Rec) :=
  get_edges_go node g.lines

/-- Loop of the `get_edges_positions` comprehension (indices instead of
records). -/
def get_edges_positions_go (node : PyVal) : List Rec → Nat → Except String (List Nat)
  | [], _ => .ok []
  | r :: rs, i =>
    match edge_touches node r with
    | .error e => .error e
    | .ok b => (get_edges_positions_go node rs (i + 1)).map (fun l => if b then i :: l else l)

/-- Source `Graph.get_edges_positions`. -/
def get_edges_positions (g : Graph) (node : PyVal) : Except String (List Nat) :=
  get_edges_positions_go node g.lines 0

/-- Source `Graph.assert_format`: infer the minimal style from the populated
record kinds, record it in `version`, and return it. -/
def assert_format (g : Graph) : GfaStyle × Graph :=
  let ver : GfaStyle :=
    if g.others.length > 0 then .GFA2
    else if g.jumps.length > 0 then .GFA1_2
    else if g.walks.length > 0 then .GFA1_1
    else if g.headers.length > 0 || g.paths.length > 0 then .GFA1
    else .RGFA
  (ver, { g with version := ver })

/-- The original sequence used by `split_segments`: the stored `seq`, or a
placeholder of `N` repeated `length` times. -/
def node_sequence (r : Rec) : Except String String :=
  match dget r.datas "seq" with
  | some (.str s) => .ok s
  | some _ => .error "TypeError: seq is not a string"
  | none =>
    match dget r.datas "length" with
    | none => .error "KeyError: length"
    | some (.int n) => .ok (String.mk (List.replicate n.toNat 'N'))
    | some _ => .error "TypeError: length is not an int"

/-- Edge loop of `split_segments`: walk the positions of the edges touching
the segment; an edge whose `start` equals the segment is redirected to start
from the LAST new name (raising `IndexError` when the new-name list is
empty) and contributes the left half of its orientation string to `orient`;
any other edge is left alone and contributes the right half.  Returns the
mutated line list, the final value of the `orient` variable, and the raised
error if any. -/
def split_redirect_go (segment_name : String) (future : List String) :
    List Nat → List Rec → String → List Rec × String × Option String
  | [], ls, orient => (ls, orient, none)
  | i :: is, ls, orient =>
    match ls[i]? with
    | none => (ls, orient, some "IndexError: list index out of range")
    | some r =>
      match dget r.datas "start" with
      | none => (ls, orient, some "KeyError: start")
      | some sv =>
        match dget r.datas "orientation" with
        | none => (ls, orient, some "KeyError: orientation")
        | some (.str ostr) =>
          if pyEq sv (.str segment_name) then
            let o2 := String.mk ((splitOnChar '/' ostr.toList).headD [])
            match future.getLast? with
            | none => (ls, o2, some "IndexError: list index out of range")
            | some last =>
              split_redirect_go segment_name future is
                (ls.set i ⟨dset r.datas "start" (.str last)⟩) o2
          else
            let o2 := String.mk ((splitOnChar '/' ostr.toList).getLastD [])
            split_redirect_go segment_name future is ls o2
        | some _ => (ls, orient, some "AttributeError: split on a non-string")

/-- The exception raised by `new_seg.datas['name'] = ...` on a freshly
constructed marker-class instance: the `Segment` (and `Line`) class bodies
declare `datas: dict` as a bare annotation only, which creates no
attribute, so reading `.datas` on `Segment()` raises `AttributeError`. -/
def freshSegmentDatasError : String :=
  "AttributeError: 'Segment' object has no attribute 'datas'"

/-- Fragment loop of `split_segments` (`for i, pos1 in enumerate(...)`):
`k` counts the remaining iterations, `i` the current index.  Each iteration
first reads `positions[i + 1]` and — as the right-hand side of the first
assignment — `future_segment_name[i]` (both always in range here), then
executes `new_seg.datas['name'] = ...` on the freshly constructed
`Segment()`, which has no `datas` attribute (see
`freshSegmentDatasError`): the loop therefore raises `AttributeError` on
its first iteration whenever it runs at all.  No fragment segment is ever
appended, no new edge is ever created, and the path-editing statement at
the bottom of the loop body is unreachable dead code. -/
def split_loop (future : List String) (positions : List Nat) :
    Nat → Nat → Graph → Graph × Option String
  | 0, _, g => (g, none)
  | _ + 1, i, g =>
    match positions[i + 1]? with
    | none => (g, some "IndexError: list index out of range")
    | some _ =>
      match future[i]? with
      | none => (g, some "IndexError: list index out of range")
      | some _ => (g, some freshSegmentDatasError)

/-- Source `Graph.split_segments` (with list arguments; the scalar-argument
wrapping of the source is the identity on lists).  The returned graph is the
object's state when the method returns or raises, paired with the raised
error if any. -/
def split_segments (g : Graph) (segment_name : String) (future_segment_name : List String)
    (position_to_split : List Nat) : Graph × Option String :=
  match get_segment_position g segment_name with
  | .error e => (g, some e)
  | .ok idx =>
    if future_segment_name.length != position_to_split.length then
      (g, some "ValueError: Parameters does not have the same length.")
    else
      match g.segments[idx]? with
      | none => (g, some "IndexError: list index out of range")
      | some node =>
        match node_sequence node with
        | .error e => (g, some e)
        | .ok sequence =>
          match get_edges_positions g (.str segment_name) with
          | .error e => (g, some e)
          | .ok eps =>
            match split_redirect_go segment_name future_segment_name eps g.lines "" with
            | (ls, _, some e) => ({ g with lines := ls }, some e)
            | (ls, _, none) =>
              let g := { g with lines := ls }
              match position_to_split with
              | [] => (g, some "IndexError: list index out of range")
              | p0 :: _ =>
                let truncated : Except String String :=
                  if dmem node.datas "seq" then
                    match dget node.datas "seq" with
                    | some (.str s) => .ok (String.mk (s.toList.take p0))
                    | _ => .error "TypeError: seq is not a string"
                  else .ok (String.mk (List.replicate p0 'N'))
                match truncated with
                | .error e => (g, some e)
                | .ok newSeq =>
                  let g := { g with
                    segments := g.segments.set idx ⟨dset node.datas "seq" (.str newSeq)⟩ }
                  split_loop future_segment_name
                    (position_to_split ++ [sequence.length])
                    position_to_split.length 0 g

/-- Stable insertion of a keyed element: it moves ahead only of strictly
larger keys, so equal keys keep their relative order (Python's `sorted` is
stable). -/
def insertByKey (x : String × Int) : List (String × Int) → List (String × Int)
  | [] => [x]
  | y :: ys => if x.2 < y.2 then x :: y :: ys else y :: insertByKey x ys

/-- Stable insertion sort by key. -/
def sortByKey : List (String × Int) → List (String × Int)
  | [] => []
  | x :: xs => insertByKey x (sortByKey xs)

/-- The `sorted([seg for seg in segs], key=lambda x: int(x))` step of
`merge_segments`: every name must parse as an integer (`ValueError`
otherwise), then the names are sorted numerically (stably). -/
def merge_sort_keys (segs : List String) : Except String (List String) :=
  match segs.mapM (fun s =>
      match intParse s with
      | some k => Except.ok (s, k)
      | none => Except.error "ValueError: invalid literal for int") with
  | .error e => .error e
  | .ok pairs => .ok ((sortByKey pairs).map (fun p => p.1))

/-- Resolve the sorted names to container positions. -/
def merge_resolve (g : Graph) (sorted : List String) : Except String (List Nat) :=
  sorted.mapM (get_segment_position g)

/-- Python `int(...)` applied to a field value, as in
`int(self.segments[i].datas['length'])`.  (`int()` truncation of floats is
not modelled; `length` fields are ints or digit strings here.) -/
def int_cast (v : PyVal) : Except String Int :=
  match v with
  | .int n => .ok n
  | .str s =>
    match intParse s with
    | some n => .ok n
    | none => .error "ValueError: invalid literal for int"
  | _ => .error "TypeError: int() argument"

/-- Sum of the `int(...)`-cast `length` fields of the segments at the given
positions (the middle and right operands of a merge). -/
def merge_sum_lengths (segs : List Rec) : List Nat → Except String Int
  | [] => .ok 0
  | i :: is =>
    match segs[i]? with
    | none => .error "IndexError: list index out of range"
    | some r =>
      match dget r.datas "length" with
      | none => .error "KeyError: length"
      | some v =>
        match int_cast v with
        | .error e => .error e
        | .ok n => (merge_sum_lengths segs is).map (fun m => n + m)

/-- The stored sequences of the segments at the given positions (all
operands, in sorted position order). -/
def merge_collect_seqs (segs : List Rec) : List Nat → Except String (List String)
  | [] => .ok []
  | i :: is =>
    match segs[i]? with
    | none => .error "IndexError: list index out of range"
    | some r =>
      match dget r.datas "seq" with
      | none => .error "KeyError: seq"
      | some (.str s) => (merge_collect_seqs segs is).map (fun ss => s :: ss)
      | some _ => .error "TypeError: sequence item is not a string"

/-- Edge re-pointing loop of `merge_segments`: each edge position touching
the right-most name gets its `start` (when it equals that name) or
otherwise its `stop` key set to the left-most name. -/
def merge_redirect_go (rn ln_name : PyVal) : List Nat → List Rec → List Rec × Option String
  | [], ls => (ls, none)
  | i :: is, ls =>
    match ls[i]? with
    | none => (ls, some "IndexError: list index out of range")
    | some r =>
      match dget r.datas "start" with
      | none => (ls, some "KeyError: start")
      | some sv =>
        if pyEq sv rn then
          merge_redirect_go rn ln_name is (ls.set i ⟨dset r.datas "start" ln_name⟩)
        else
          merge_redirect_go rn ln_name is (ls.set i ⟨dset r.datas "stop" ln_name⟩)

/-- Collect the edge positions touching any strictly-interior operand
(`chain(*[get_edges_positions(...) for node_pos in positions[1:-1]])`),
reading the current segment names and the current (already re-pointed)
edge list. -/
def merge_deletions (segs ls : List Rec) : List Nat → Except String (List Nat)
  | [] => .ok []
  | i :: is =>
    match segs[i]? with
    | none => .error "IndexError: list index out of range"
    | some r =>
      match dget r.datas "name" with
      | none => .error "KeyError: name"
      | some nm =>
        match get_edges_positions_go nm ls 0 with
        | .error e => .error e
        | .ok here => (merge_deletions segs ls is).map (fun rest => here ++ rest)

/-- The `start_pos`/`end_pos` scan of the merge path edit: enumerate the
path elements; a name equal to the left-most name records its index as
`start_pos`, otherwise a name equal to the right-most name records its
index as `end_pos` (both initialized to 0, so later occurrences win). -/
def merge_path_bounds_go (ln rn : PyVal) :
    List (String × Orientation) → Nat → Nat → Nat → Nat × Nat
  | [], _, s, e => (s, e)
  | nv :: t, i, s, e =>
    if pyEq (.str nv.1) ln then merge_path_bounds_go ln rn t (i + 1) i e
    else if pyEq (.str nv.1) rn then merge_path_bounds_go ln rn t (i + 1) s i
    else merge_path_bounds_go ln rn t (i + 1) s e

/-- The merge path edit of one element list: when both recorded positions
are non-zero (Python truthiness), keep `path[:min] + path[max:]`; otherwise
leave the list unchanged. -/
def merge_path_edit (ln rn : PyVal) (es : List (String × Orientation)) :
    List (String × Orientation) :=
  let se := merge_path_bounds_go ln rn es 0 0 0
  if se.1 != 0 && se.2 != 0 then es.take (min se.1 se.2) ++ es.drop (max se.1 se.2)
  else es

/-- Sequential merge path edit over a record list, keeping the edits already
performed when a later record raises. -/
def merge_edit_paths_go (ln rn : PyVal) : List Rec → List Rec → List Rec × Option String
  | [], acc => (acc.reverse, none)
  | r :: rs, acc =>
    match dget r.datas "path" with
    | none => (acc.reverse ++ r :: rs, some "KeyError: path")
    | some (.path es) =>
      merge_edit_paths_go ln rn rs (⟨dset r.datas "path" (.path (merge_path_edit ln rn es))⟩ :: acc)
    | some _ => (acc.reverse ++ r :: rs, some "TypeError: path field is not a path list")

/-- Keep the elements of `xs` whose index is not listed in `bad` (the final
`enumerate`-filter deletions of `merge_segments`). -/
def filter_indices (xs : List Rec) (bad : List Nat) : List Rec :=
  (xs.enum.filter (fun p => !(bad.contains p.1))).map (fun p => p.2)

/-- Tail of `merge_segments` after the left segment's length/sequence
update (`g2` is the graph at that point): read the right-most and left-most
names, re-point the edges touching the right-most name, collect the edge
positions of the interior operands, edit every path and walk, and delete
the interior segments and collected edges. -/
def merge_segments_rest (g2 : Graph) (positions : List Nat) (p0 plast : Nat) : Graph × Option String :=
  match g2.segments[plast]? with
  | none => (g2, some "IndexError: list index out of range")
  | some right2 =>
  match dget right2.datas "name" with
  | none => (g2, some "KeyError: name")
  | some rn =>
  match get_edges_positions_go rn g2.lines 0 with
  | .error e => (g2, some e)
  | .ok eps =>
  match g2.segments[p0]? with
  | none => (g2, some "IndexError: list index out of range")
  | some left2 =>
  match dget left2.datas "name" with
  | none => (g2, some "KeyError: name")
  | some ln_name =>
  match merge_redirect_go rn ln_name eps g2.lines with
  | (ls, some e) => ({ g2 with lines := ls }, some e)
  | (ls, none) =>
    let g3 := { g2 with lines := ls }
    let interiors := (positions.drop 1).dropLast
    match merge_deletions g3.segments g3.lines interiors with
    | .error e => (g3, some e)
    | .ok dels =>
      match merge_edit_paths_go ln_name rn g3.paths [] with
      | (ps, some e) => ({ g3 with paths := ps }, some e)
      | (ps, none) =>
        match merge_edit_paths_go ln_name rn g3.walks [] with
        | (ws, some e) => ({ g3 with paths := ps, walks := ws }, some e)
        | (ws, none) =>
          ({ g3 with
              paths := ps
              walks := ws
              segments := filter_indices g3.segments interiors
              lines := filter_indices g3.lines dels }, none)

/-- Source `Graph.merge_segments` (the variadic `*segs` supplied as a list).
The returned graph is the object's state when the method returns or raises,
paired with the raised error if any.  (The method's `left_most_name` return
value is not needed by any claim and is not modelled.) -/
def merge_segments (g : Graph) (segs : List String) : Graph × Option String :=
  match merge_sort_keys segs with
  | .error e => (g, some e)
  | .ok sorted =>
  match merge_resolve g sorted with
  | .error e => (g, some e)
  | .ok positions =>
  match positions[0]? with
  | none => (g, some "IndexError: list index out of range")
  | some p0 =>
  match positions.getLast? with
  | none => (g, some "IndexError: list index out of range")
  | some plast =>
  match g.segments[p0]? with
  | none => (g, some "IndexError: list index out of range")
  | some left0 =>
  match dget left0.datas "length" with
  | none => (g, some "KeyError: length")
  | some lv =>
  match merge_sum_lengths g.segments (positions.drop 1) with
  | .error e => (g, some e)
  | .ok total =>
  match lv with
  | .int ln0 =>
    let leftDatas1 := dset left0.datas "length" (.int (ln0 + total))
    let g1 := { g with segments := g.segments.set p0 ⟨leftDatas1⟩ }
    let seqStep : Graph × Option String :=
      if dmem left0.datas "seq" then
        match merge_collect_seqs g1.segments positions with
        | .error e => (g1, some e)
        | .ok ss =>
          ({ g1 with segments := g1.segments.set p0 ⟨dset leftDatas1 "seq" (.str (String.join ss))⟩ }, none)
      else (g1, none)
    match seqStep with
    | (g2, some e) => (g2, some e)
    | (g2, none) => merge_segments_rest g2 positions p0 plast
  | _ => (g, some "TypeError: unsupported operand type for +=")

/-- Render one field of a record for serialization: `key:type:value` via
`dtype`, except synthetic `ARG...` keys which render as the bare value. -/
def render_tag_item (kv : String × PyVal) : Except String String :=
  if kv.1.toList.take 3 == ['A', 'R', 'G'] then .ok (pyStr kv.2)
  else
    match dtype kv.2 with
    | .error e => .error e
    | .ok t => .ok (kv.1 ++ ":" ++ String.mk [t] ++ ":" ++ pyStr kv.2)

/-- Render the non-excluded fields of a record, in insertion order. -/
def render_tags (d : List (String × PyVal)) (excl : List String) : Except String (List String) :=
  (d.filter (fun kv => !(excl.contains kv.1))).mapM render_tag_item

/-- The H-line writer of `save_graph`. -/
def render_header_line (r : Rec) : Except String String :=
  (render_tags r.datas []).map (fun tags => "H\t" ++ String.intercalate "\t" tags ++ "\n")

/-- The S-line writer of `save_graph`: name, stored sequence (or an `N`
fill of `length`), then the remaining fields — note the f-string places a
tab between the sequence and the (possibly empty) joined tag list. -/
def render_segment_line (r : Rec) : Except String String :=
  match dget r.datas "name" with
  | none => .error "KeyError: name"
  | some nm =>
    let seqPart : Except String String :=
      if dmem r.datas "seq" then
        match dget r.datas "seq" with
        | some v => .ok (pyStr v)
        | none => .error "KeyError: seq"
      else
        match dget r.datas "length" with
        | none => .error "KeyError: length"
        | some (.int n) => .ok (String.mk (List.replicate n.toNat 'N'))
        | some _ => .error "TypeError: length is not an int"
    match seqPart with
    | .error e => .error e
    | .ok sq =>
      (render_tags r.datas ["length", "seq", "name"]).map (fun tags =>
        "S\t" ++ pyStr nm ++ "\t" ++ sq ++ "\t" ++ String.intercalate "\t" tags ++ "\n")

/-- The L-line writer of `save_graph`: unpack the `from/to` orientation
string (exactly two parts), then start, end and the remaining fields.  The
`end` key is read here — an edge created by `split_segments` stores `stop`
instead and would raise `KeyError`. -/
def render_line_line (r : Rec) : Except String String :=
  match dget r.datas "orientation" with
  | none => .error "KeyError: orientation"
  | some (.str ostr) =>
    match splitOnChar '/' ostr.toList with
    | [o1, o2] =>
      match dget r.datas "start" with
      | none => .error "KeyError: start"
      | some sv =>
        match dget r.datas "end" with
        | none => .error "KeyError: end"
        | some ev =>
          (render_tags r.datas ["orientation", "start", "end"]).map (fun tags =>
            "L\t" ++ pyStr sv ++ "\t" ++ String.mk o1 ++ "\t" ++ pyStr ev ++ "\t" ++
              String.mk o2 ++ "\t" ++ String.intercalate "\t" tags ++ "\n")
    | _ => .error "ValueError: not enough values to unpack"
  | some _ => .error "AttributeError: split on a non-string"

/-- The ordered `(name, orientation)` elements of a Path/Walk record. -/
def pathElemsOf (r : Rec) : Except String (List (String × Orientation)) :=
  match dget r.datas "path" with
  | some (.path es) => .ok es
  | some _ => .error "TypeError: path field is not a path list"
  | none => .error "KeyError: path"

/-- Source `write_path`: P syntax under GFA1 (comma-joined tokens of name
plus orientation sign,
literal `*` placeholder, and — as in the source — NO trailing newline);
W syntax under GFA1.1/1.2/2 (concatenated `>`/`<`-prefixed tokens, stored
or sequential `origin`, `?` placeholders for missing offsets, trailing
newline); the empty string otherwise. -/
def write_path (way : Rec) (gfa_format : GfaStyle) (line_number : Nat) : Except String String :=
  if gfa_format == .GFA1 then
    match pathElemsOf way with
    | .error e => .error e
    | .ok es =>
      match dget way.datas "name" with
      | none => .error "KeyError: name"
      | some nm =>
        .ok ("P\t" ++ pyStr nm ++ "\t" ++
          String.intercalate ","
            (es.map (fun nv => nv.1 ++ (if nv.2 == Orientation.FORWARD then "+" else "-"))) ++
          "\t*")
  else if gfa_format == .GFA1_1 || gfa_format == .GFA1_2 || gfa_format == .GFA2 then
    let offset_start := match dget way.datas "start_offset" with
      | some v => pyStr v
      | none => "?"
    let offset_stop := match dget way.datas "stop_offset" with
      | some v => pyStr v
      | none => "?"
    match pathElemsOf way with
    | .error e => .error e
    | .ok es =>
      match dget way.datas "name" with
      | none => .error "KeyError: name"
      | some nm =>
        let origin := match dget way.datas "origin" with
          | some v => pyStr v
          | none => natRepr line_number
        .ok ("W\t" ++ pyStr nm ++ "\t" ++ origin ++ "\t" ++ pyStr nm ++ "\t" ++
          offset_start ++ "\t" ++ offset_stop ++ "\t" ++
          String.join (es.map (fun nv =>
            (if nv.2 == Orientation.FORWARD then ">" else "<") ++ nv.1)) ++ "\t*\n")
  else .ok ""

/-- Loop writing the path/walk records with the sequential `line_number`. -/
def write_paths_go (fmt : GfaStyle) : List Rec → Nat → Except String (List String)
  | [], _ => .ok []
  | r :: rs, n =>
    match write_path r fmt n with
    | .error e => .error e
    | .ok s => (write_paths_go fmt rs (n + 1)).map (fun ss => s :: ss)

/-- Source `Graph.save_graph`, modelled as producing the text written to the
output file: headers (skipped when the output format is rGFA), segments,
edges, then paths/walks via `write_path`. -/
def save_graph_text (g : Graph) (output_format : Option GfaStyle) : Except String String :=
  let fmt := output_format.getD g.version
  match (if fmt != .RGFA then g.headers.mapM render_header_line else .ok []) with
  | .error e => .error e
  | .ok hs =>
    match g.segments.mapM render_segment_line with
    | .error e => .error e
    | .ok ss =>
      match g.lines.mapM render_line_line with
      | .error e => .error e
      | .ok ls =>
        match write_paths_go fmt (get_path_list g) 0 with
        | .error e => .error e
        | .ok ps => .ok (String.join (hs ++ ss ++ ls ++ ps))

/-- Convenience constructor for the concrete graphs used below: declared
GFA1, with only segments, edges and P-paths populated. -/
def mkTestGraph (segs ls ps : List Rec) : Graph :=
  { version := .GFA1
    headers := []
    segments := segs
    lines := ls
    containment := []
    paths := ps
    walks := []
    jumps := []
    others := [] }

/-- Two segments, one edge from 1 to 2 (as parsed from an L-line, so the
second endpoint sits under the `end` key), and one path traversing 1 then
2. -/
def gSplitPath : Graph := mkTestGraph
  [⟨[("name", .str "1"), ("length", .int 4), ("seq", .str "ACGT")]⟩,
    ⟨[("name", .str "2"), ("length", .int 4), ("seq", .str "GGTT")]⟩]
  [⟨[("start", .str "1"), ("end", .str "2"), ("orientation", .str "+/+")]⟩]
  [⟨[("name", .str "p"), ("path", .path [("1", .FORWARD), ("2", .FORWARD)])]⟩]

/-- A single segment named 1 with sequence ACGT (the split scenario of the
spec). -/
def gOneSeg : Graph := mkTestGraph
  [⟨[("name", .str "1"), ("length", .int 4), ("seq", .str "ACGT")]⟩] [] []

/-- A single segment named 7 with sequence ACGT. -/
def gSeg7 : Graph := mkTestGraph
  [⟨[("name", .str "7"), ("length", .int 4), ("seq", .str "ACGT")]⟩] [] []

/-- Three length-1 segments named 1, 2, 3 (no stored sequences), no edges,
and one path 9, 1, 2, 3 — a merge of 1, 2, 3 succeeds on it. -/
def gMergePath : Graph := mkTestGraph
  [⟨[("name", .str "1"), ("length", .int 1)]⟩,
    ⟨[("name", .str "2"), ("length", .int 1)]⟩,
    ⟨[("name", .str "3"), ("length", .int 1)]⟩]
  []
  [⟨[("name", .str "pm"),
      ("path", .path [("9", .FORWARD), ("1", .FORWARD), ("2", .FORWARD), ("3", .FORWARD)])]⟩]

/-- One L-line edge from 1 to 2, no segments or paths. -/
def gOneEdge : Graph := mkTestGraph []
  [⟨[("start", .str "1"), ("end", .str "2"), ("orientation", .str "+/+")]⟩] []

/-- The two-segment, one-edge GFA1 file of the round-trip scenario, as its
list of lines. -/
def inputLinesC7 : List String := ["S\t1\tACGT", "S\t2\tGGTT", "L\t1\t+\t2\t+\t*"]

/-- The text of the round-trip scenario input file. -/
def inputTextC7 : String := "S\t1\tACGT\nS\t2\tGGTT\nL\t1\t+\t2\t+\t*\n"

/-- Load the round-trip scenario (sequence retention on, declared GFA1) and
save it unedited. -/
def roundtripC7 : Except String String :=
  match loadGraph inputLinesC7 "GFA1" true with
  | .ok g => save_graph_text g none
  | .error e => .error e

/-- The text `save_graph` actually produces for the round-trip scenario:
each S-line carries a trailing tab before its newline (empty joined tag
list after the f-string's tab), the L-line is reproduced exactly. -/
def outputTextC7 : String := "S\t1\tACGT\t\nS\t2\tGGTT\t\nL\t1\t+\t2\t+\t*\n"

/-- Boolean success test of an `Except` result. -/
def exceptIsOk : Except String α → Bool
  | .ok _ => true
  | .error _ => false

/-- The value kinds matching each supported tag type letter (`i` for ints,
`f` for floats, `A` and `Z` for strings, `J` for structured values). -/
def kind_matches : Char → PyVal → Prop
  | 'i', .int _ => True
  | 'f', .float _ => True
  | 'A', .str _ => True
  | 'Z', .str _ => True
  | 'J', .json _ => True
  | _, _ => False

/-- Count of trailing tokens that do NOT match the tag pattern (these are
the ones that advance the `nargs` counter of `supplementary_datas`). -/
def countUnmatched (ts : List String) : Nat :=
  (ts.filter (fun t => !(tagMatch t))).length

/-- A sample parsed line whose trailing tokens (past the fixed-field count
7) are one well-formed tag and one free-form token. -/
def demoDatas : List String :=
  ["W", "x", "0", "y", "0", "4", ">1", "AB:i:7", "raw"]

/-- The index recorded by the merge path scan for one name: the index of
its last occurrence among the element names, with the initial value 0 kept
when it never occurs (Python truthiness later conflates index 0 with
absence). -/
def last_occurrence_or_zero (x : String) : List (String × Orientation) → Nat → Nat → Nat
  | [], _, acc => acc
  | nv :: t, i, acc =>
    last_occurrence_or_zero x t (i + 1) (if nv.1 == x then i else acc)

/-- The total per-record form of the merge path edit (on a record without a
well-formed `path` field the loop raises instead; under a successful merge
the two agree). -/
def merge_edit_rec (ln rn : PyVal) (r : Rec) : Rec :=
  match dget r.datas "path" with
  | some (.path es) => ⟨dset r.datas "path" (.path (merge_path_edit ln rn es))⟩
  | _ => r

/-- The name of the left-most (numerically smallest) operand of a merge,
read from the pre-merge graph. -/
def merge_left_name (g : Graph) (segs : List String) : Option PyVal :=
  match merge_sort_keys segs with
  | .error _ => none
  | .ok sorted =>
    match merge_resolve g sorted with
    | .error _ => none
    | .ok positions =>
      match positions[0]? with
      | none => none
      | some p0 => (g.segments[p0]?).bind (fun r => dget r.datas "name")

/-- The name of the right-most (numerically largest) operand of a merge,
read from the pre-merge graph. -/
def merge_right_name (g : Graph) (segs : List String) : Option PyVal :=
  match merge_sort_keys segs with
  | .error _ => none
  | .ok sorted =>
    match merge_resolve g sorted with
    | .error _ => none
    | .ok positions =>
      match positions.getLast? with
      | none => none
      | some plast => (g.segments[plast]?).bind (fun r => dget r.datas "name")

/-- The path transformation the amended merge claim describes: with `s` and
`e` the last-occurrence indices of the left-most and right-most names (0
when a name is absent — or when its only occurrence sits at position 0),
the elements from the smaller index up to but excluding the larger are
removed when both indices are nonzero — dropping the earlier endpoint
occurrence and keeping the later one — and the list is unchanged
otherwise. -/
def merge_path_edit_spec (L R : String) (es : List (String × Orientation)) :
    List (String × Orientation) :=
  let s := last_occurrence_or_zero L es 0 0
  let e := last_occurrence_or_zero R es 0 0
  if s ≠ 0 ∧ e ≠ 0 then es.take (min s e) ++ es.drop (max s e) else es

/-! ### Foundational lemmas about decimal representations and dictionaries -/

/-- Characters produced by `natDigits` are digits with the expected value. -/
theorem digitChar_spec : ∀ d : Nat, d < 10 →
    isDigitChar (Char.ofNat (48 + d)) = true ∧ digitVal (Char.ofNat (48 + d)) = d := by
  decide

/-- Parsing distributes over list append. -/
theorem natParseGo_append (ys : List Char) :
    ∀ (xs : List Char) (a : Nat),
      natParseGo (xs ++ ys) a =
        match natParseGo xs a with
        | some m => natParseGo ys m
        | none => none := by
  intro xs
  induction xs with
  | nil => intro a; rfl
  | cons c cs ih =>
    intro a
    by_cases h : isDigitChar c = true
    · simp [natParseGo, h, ih]
    · simp [natParseGo, h]

/-- Digit-loop round trip on the fueled digit list. -/
theorem natParseGo_natDigitsGo :
    ∀ fuel n : Nat, n < fuel → natParseGo (natDigitsGo fuel n) 0 = some n := by
  intro fuel
  induction fuel with
  | zero => intro n h; omega
  | succ f ih =>
    intro n h
    by_cases h10 : n < 10
    · simp only [natDigitsGo, if_pos h10]
      have hd := digitChar_spec n h10
      simp [natParseGo, hd.1, hd.2]
    · simp only [natDigitsGo, if_neg h10]
      rw [natParseGo_append, ih (n / 10) (by omega)]
      have hd := digitChar_spec (n % 10) (Nat.mod_lt _ (by omega))
      simp [natParseGo, hd.1, hd.2]
      omega

/-- Digit-loop round trip on the digits of a natural number. -/
theorem natParseGo_natDigits (n : Nat) : natParseGo (natDigits n) 0 = some n :=
  natParseGo_natDigitsGo (n + 1) n (by omega)

/-- The fueled digit list is never empty when the fuel suffices. -/
theorem natDigitsGo_ne_nil (fuel n : Nat) (h : n < fuel) : natDigitsGo fuel n ≠ [] := by
  cases fuel with
  | zero => omega
  | succ f =>
    simp only [natDigitsGo]
    split <;> simp

/-- A decimal representation is never empty. -/
theorem natDigits_ne_nil (n : Nat) : natDigits n ≠ [] :=
  natDigitsGo_ne_nil (n + 1) n (by omega)

/-- Every character of a fueled digit list is a digit. -/
theorem natDigitsGo_all_digit :
    ∀ fuel n : Nat, n < fuel → ∀ c ∈ natDigitsGo fuel n, isDigitChar c = true := by
  intro fuel
  induction fuel with
  | zero => intro n h; omega
  | succ f ih =>
    intro n h c hc
    by_cases h10 : n < 10
    · rw [natDigitsGo, if_pos h10] at hc
      simp at hc
      subst hc
      exact (digitChar_spec n h10).1
    · rw [natDigitsGo, if_neg h10] at hc
      rcases List.mem_append.mp hc with h1 | h2
      · exact ih (n / 10) (by omega) c h1
      · simp at h2
        subst h2
        exact (digitChar_spec _ (Nat.mod_lt _ (by omega))).1

/-- Every character of a decimal representation is a digit. -/
theorem natDigits_all_digit (n : Nat) : ∀ c ∈ natDigits n, isDigitChar c = true :=
  natDigitsGo_all_digit (n + 1) n (by omega)

/-- Round trip of `natParseChars` on decimal digit lists. -/
theorem natParseChars_natDigits (n : Nat) : natParseChars (natDigits n) = some n := by
  have h1 := natParseGo_natDigits n
  cases h : natDigits n with
  | nil => exact absurd h (natDigits_ne_nil n)
  | cons c t =>
    rw [h] at h1
    simpa [natParseChars] using h1

/-- Decimal representations are injective. -/
theorem natRepr_inj (a b : Nat) (h : natRepr a = natRepr b) : a = b := by
  have hd : natDigits a = natDigits b := by
    simpa [natRepr] using congrArg String.data h
  have ha := natParseChars_natDigits a
  have hb := natParseChars_natDigits b
  rw [hd, hb] at ha
  exact (Option.some_inj.mp ha).symm

/-- Python `int(str(n)) == n`: round trip of the modelled `int` cast on the
modelled decimal rendering. -/
theorem intParse_intReprStr (n : Int) : intParse (intReprStr n) = some n := by
  unfold intParse intReprStr
  by_cases h : n < 0
  · rw [if_pos h]
    have hl : ("-" ++ natRepr n.natAbs).toList = '-' :: natDigits n.natAbs := rfl
    rw [hl]
    show (natParseChars (natDigits n.natAbs)).map (fun m => -(m : Int)) = some n
    rw [natParseChars_natDigits]
    show some (-((n.natAbs : Nat) : Int)) = some n
    congr 1
    omega
  · rw [if_neg h]
    cases hnd : natDigits n.toNat with
    | nil => exact absurd hnd (natDigits_ne_nil n.toNat)
    | cons c t =>
      have hc : isDigitChar c = true :=
        natDigits_all_digit n.toNat c (by rw [hnd]; exact List.mem_cons_self c t)
      have hcne : ¬(c = '-') := by
        intro he
        rw [he] at hc
        exact absurd hc (by decide)
      have hl : (natRepr n.toNat).toList = c :: t := hnd
      rw [hl]
      show (if c = '-' then (natParseChars t).map (fun m => -(m : Int))
        else (natParseChars (c :: t)).map (fun m => (m : Int))) = some n
      rw [if_neg hcne, ← hnd, natParseChars_natDigits]
      show some ((n.toNat : Nat) : Int) = some n
      congr 1
      omega

/-- Reading back the key just assigned. -/
theorem dget_dset_self (d : List (String × PyVal)) (k : String) (v : PyVal) :
    dget (dset d k v) k = some v := by
  induction d with
  | nil => simp [dset, dget]
  | cons kv t ih =>
    obtain ⟨k1, v1⟩ := kv
    by_cases h : k1 = k
    · subst h
      simp [dset, dget]
    · simp [dset, dget, h, ih]

/-- Assignment to a different key does not change a lookup. -/
theorem dget_dset_ne (d : List (String × PyVal)) (k k2 : String) (v : PyVal)
    (h : k ≠ k2) : dget (dset d k v) k2 = dget d k2 := by
  induction d with
  | nil => simp [dset, dget, h]
  | cons kv t ih =>
    obtain ⟨k1, v1⟩ := kv
    by_cases h1 : k1 = k
    · subst h1
      simp [dset, dget, h]
    · by_cases h2 : k1 = k2
      · subst h2
        simp [dset, dget, h1]
      · simp [dset, dget, h1, h2, ih]

/-! ### Claim theorems (closed evaluations) -/

/-- Claim C1 (code_bug evidence): on a graph with segments 1 and 2, an edge
from 1 to 2 and a path traversing 1 then 2, the call
`split_segments("1", ["10"], [2])` raises `AttributeError` in the first
iteration of its fragment loop (the freshly constructed `Segment()` has no
`datas` attribute) and leaves the path exactly as it was — the occurrence
of 1 is NOT replaced by the new names.  At the moment of the raise the
outgoing edge has been redirected to start from 10 and segment 1 has been
truncated to AC, but no fragment or edge has been appended, and the
path-editing statement further down the loop body is unreachable dead
code: no split ever rewrites a path. -/
theorem split_segments_path_not_replaced :
    split_segments gSplitPath "1" ["10"] [2] =
      ({ version := .GFA1
         headers := []
         segments := [⟨[("name", .str "1"), ("length", .int 4), ("seq", .str "AC")]⟩,
           ⟨[("name", .str "2"), ("length", .int 4), ("seq", .str "GGTT")]⟩]
         lines := [⟨[("start", .str "10"), ("end", .str "2"), ("orientation", .str "+/+")]⟩]
         containment := []
         paths := [⟨[("name", .str "p"), ("path", .path [("1", .FORWARD), ("2", .FORWARD)])]⟩]
         walks := []
         jumps := []
         others := [] }, some freshSegmentDatasError) ∧
    (split_segments gSplitPath "1" ["10"] [2]).1.paths = gSplitPath.paths :=
  ⟨rfl, rfl⟩

/-- Claim C4 (code_bug evidence): the spec scenario
`split("1", ["10"], [2])` on segment 1 with sequence ACGT does NOT succeed:
the first statement of the fragment loop, `new_seg.datas['name'] = ...`,
raises `AttributeError` because the fresh `Segment()` instance has no
`datas` attribute (the class body only annotates it).  At the raise,
segment 1 has been truncated to AC with its `length` still 4, NO segment
10 has been appended, and no edge at all has been added. -/
theorem split_scenario_raises_attribute_error :
    split_segments gOneSeg "1" ["10"] [2] =
      (mkTestGraph
        [⟨[("name", .str "1"), ("length", .int 4), ("seq", .str "AC")]⟩] [] [],
        some freshSegmentDatasError) :=
  rfl

/-- Claim C6 (code_bug evidence): `split_segments("7", ["8"], [2])` on a
segment of sequence ACGT truncates its stored sequence to AC (of length 2)
while its `length` field still reads 4 — the sequence-length invariant is
broken by the operation, which then raises `AttributeError` in its
fragment loop without appending anything. -/
theorem split_breaks_length_invariant :
    split_segments gSeg7 "7" ["8"] [2] =
      (mkTestGraph
        [⟨[("name", .str "7"), ("length", .int 4), ("seq", .str "AC")]⟩] [] [],
        some freshSegmentDatasError) ∧
    ("AC" : String).length = 2 :=
  ⟨rfl, rfl⟩

/-- Claim C2 counterexample: merging 1, 2, 3 on a path 9, 1, 2, 3 succeeds
and yields the path 9, 3 — the occurrence of the left-most name 1 is
REMOVED (the code keeps `path[:min] + path[max:]`), contradicting the
claim that both endpoint occurrences are kept with only the elements
strictly between them removed (which would give 9, 1, 3). -/
theorem merge_segments_drops_left_endpoint :
    (merge_segments gMergePath ["1", "2", "3"]).2 = none ∧
    ((merge_segments gMergePath ["1", "2", "3"]).1.paths.map (fun r => dget r.datas "path")) =
      [some (.path [("9", .FORWARD), ("3", .FORWARD)])] ∧
    [("9", Orientation.FORWARD), ("3", Orientation.FORWARD)] ≠
      [("9", Orientation.FORWARD), ("1", Orientation.FORWARD), ("3", Orientation.FORWARD)] :=
  ⟨rfl, rfl, by decide⟩

/-- Claim C7 (amended): loading the two-segment, one-edge GFA1 file and
saving it unedited reproduces the three records, except that each S-line
carries one extra trailing tab before its newline (the serializer's
f-string always emits a tab before the — here empty — joined tag list);
the L-line is reproduced exactly. -/
theorem roundtrip_output_exact : roundtripC7 = .ok outputTextC7 := rfl

/-- Claim C7 counterexample: the saved text is not identical to the input
text (the S-lines gained a trailing tab). -/
theorem roundtrip_not_identical :
    roundtripC7 = .ok outputTextC7 ∧ outputTextC7 ≠ inputTextC7 :=
  ⟨rfl, by decide⟩

/-- Claim C8 counterexample: for the structured value made of the object
with key a and value 1 — whose inferred tag letter is J — the serializer
renders it via Python `str()` as a single-quoted dict repr, which the J
decoder (`json.loads`) rejects: the round trip fails for type letter J. -/
theorem tag_codec_json_roundtrip_fails :
    dtype (PyVal.json (JsonVal.jobj [("a", JsonVal.jint 1)])) = .ok 'J' ∧
    pyStr (PyVal.json (JsonVal.jobj [("a", JsonVal.jint 1)])) =
      String.mk [lbrace] ++ "'a': 1" ++ String.mk [rbrace] ∧
    gtype 'J' (pyStr (PyVal.json (JsonVal.jobj [("a", JsonVal.jint 1)]))) =
      .error "JSONDecodeError: Expecting property name enclosed in double quotes" :=
  ⟨rfl, rfl, rfl⟩

/-- Claim C9: `assert_format` returns GFA2 when Other records are present,
else GFA1.2 when Jumps are present, else GFA1.1 when Walks are present,
else GFA1 when Headers or Paths are present, else rGFA; it stores the
result in the container's `version` and is independent of the declared
style. -/
theorem assert_format_spec (g : Graph) :
    ((assert_format g).2 = { g with version := (assert_format g).1 }) ∧
    (g.others ≠ [] → (assert_format g).1 = .GFA2) ∧
    (g.others = [] → g.jumps ≠ [] → (assert_format g).1 = .GFA1_2) ∧
    (g.others = [] → g.jumps = [] → g.walks ≠ [] → (assert_format g).1 = .GFA1_1) ∧
    (g.others = [] → g.jumps = [] → g.walks = [] → (g.headers ≠ [] ∨ g.paths ≠ []) →
      (assert_format g).1 = .GFA1) ∧
    (g.others = [] → g.jumps = [] → g.walks = [] → g.headers = [] → g.paths = [] →
      (assert_format g).1 = .RGFA) ∧
    (∀ v : GfaStyle, (assert_format { g with version := v }).1 = (assert_format g).1) := by
  refine ⟨rfl, ?_, ?_, ?_, ?_, ?_, fun v => rfl⟩
  · intro h
    simp [assert_format, List.length_pos.mpr h]
  · intro h1 h2
    simp [assert_format, h1, List.length_pos.mpr h2]
  · intro h1 h2 h3
    simp [assert_format, h1, h2, List.length_pos.mpr h3]
  · intro h1 h2 h3 h4
    rcases h4 with h | h <;>
      simp [assert_format, h1, h2, h3, List.length_pos.mpr h]
  · intro h1 h2 h3 h4 h5
    simp [assert_format, h1, h2, h3, h4, h5]

/-- Claim C9 witness: a graph populated with only segments and edges infers
rGFA. -/
theorem assert_format_witness : (assert_format gOneEdge).1 = GfaStyle.RGFA :=
  (assert_format_spec gOneEdge).2.2.2.2.2.1 rfl rfl rfl rfl rfl

/-- When every record of the list has a `start` value and no `stop` key, a
non-matching `start` somewhere in the list makes the `get_edges` scan raise
`KeyError` on `stop`. -/
theorem get_edges_go_error (name : String) :
    ∀ ls : List Rec,
      (∀ r ∈ ls, (dget r.datas "start").isSome = true ∧ dget r.datas "stop" = none) →
      (∃ r ∈ ls, ∀ v, dget r.datas "start" = some v → pyEq (.str name) v = false) →
      get_edges_go (.str name) ls = .error "KeyError: stop" := by
  intro ls
  induction ls with
  | nil =>
    intro _ hex
    simp at hex
  | cons r rs ih =>
    intro hall hex
    have hr := hall r (List.mem_cons_self r rs)
    obtain ⟨v, hv⟩ := Option.isSome_iff_exists.mp hr.1
    by_cases hmatch : pyEq (.str name) v = true
    · have hextail : ∃ r2 ∈ rs, ∀ w, dget r2.datas "start" = some w →
          pyEq (.str name) w = false := by
        rcases hex with ⟨r2, hmem, hprop⟩
        rcases List.mem_cons.mp hmem with heq | hmem2
        · subst heq
          rw [hprop v hv] at hmatch
          exact absurd hmatch (by simp)
        · exact ⟨r2, hmem2, hprop⟩
      have htail := ih (fun r2 h2 => hall r2 (List.mem_cons_of_mem r h2)) hextail
      simp only [get_edges_go, edge_touches, hv, hmatch, htail, if_pos]
      rfl
    · have hb : pyEq (.str name) v = false := by
        cases hp : pyEq (.str name) v
        · rfl
        · exact absurd hp hmatch
      simp [get_edges_go, edge_touches, hv, hb, hr.2]

/-- When every record's `start` value matches the queried name, the
`get_edges` scan returns normally. -/
theorem get_edges_go_ok (name : String) :
    ∀ ls : List Rec,
      (∀ r ∈ ls, ∃ v, dget r.datas "start" = some v ∧ pyEq (.str name) v = true) →
      exceptIsOk (get_edges_go (.str name) ls) = true := by
  intro ls
  induction ls with
  | nil => intro _; rfl
  | cons r rs ih =>
    intro hall
    obtain ⟨v, hv, hm⟩ := hall r (List.mem_cons_self r rs)
    have htail := ih (fun r2 h2 => hall r2 (List.mem_cons_of_mem r h2))
    cases hres : get_edges_go (.str name) rs with
    | error e => rw [hres] at htail; exact absurd htail (by simp [exceptIsOk])
    | ok l =>
      simp only [get_edges_go, edge_touches, hv, hm, hres, if_pos]
      rfl

/-- Position-scan analogue of `get_edges_go_error` (any starting index). -/
theorem get_edges_positions_go_error (name : String) :
    ∀ ls : List Rec,
      (∀ r ∈ ls, (dget r.datas "start").isSome = true ∧ dget r.datas "stop" = none) →
      (∃ r ∈ ls, ∀ v, dget r.datas "start" = some v → pyEq (.str name) v = false) →
      ∀ i, get_edges_positions_go (.str name) ls i = .error "KeyError: stop" := by
  intro ls
  induction ls with
  | nil =>
    intro _ hex
    simp at hex
  | cons r rs ih =>
    intro hall hex i
    have hr := hall r (List.mem_cons_self r rs)
    obtain ⟨v, hv⟩ := Option.isSome_iff_exists.mp hr.1
    by_cases hmatch : pyEq (.str name) v = true
    · have hextail : ∃ r2 ∈ rs, ∀ w, dget r2.datas "start" = some w →
          pyEq (.str name) w = false := by
        rcases hex with ⟨r2, hmem, hprop⟩
        rcases List.mem_cons.mp hmem with heq | hmem2
        · subst heq
          rw [hprop v hv] at hmatch
          exact absurd hmatch (by simp)
        · exact ⟨r2, hmem2, hprop⟩
      have htail := ih (fun r2 h2 => hall r2 (List.mem_cons_of_mem r h2)) hextail (i + 1)
      simp only [get_edges_positions_go, edge_touches, hv, hmatch, htail, if_pos]
      rfl
    · have hb : pyEq (.str name) v = false := by
        cases hp : pyEq (.str name) v
        · rfl
        · exact absurd hp hmatch
      simp [get_edges_positions_go, edge_touches, hv, hb, hr.2]

/-- Position-scan analogue of `get_edges_go_ok`. -/
theorem get_edges_positions_go_ok (name : String) :
    ∀ ls : List Rec,
      (∀ r ∈ ls, ∃ v, dget r.datas "start" = some v ∧ pyEq (.str name) v = true) →
      ∀ i, exceptIsOk (get_edges_positions_go (.str name) ls i) = true := by
  intro ls
  induction ls with
  | nil => intro _ _; rfl
  | cons r rs ih =>
    intro hall i
    obtain ⟨v, hv, hm⟩ := hall r (List.mem_cons_self r rs)
    have htail := ih (fun r2 h2 => hall r2 (List.mem_cons_of_mem r h2)) (i + 1)
    cases hres : get_edges_positions_go (.str name) rs (i + 1) with
    | error e => rw [hres] at htail; exact absurd htail (by simp [exceptIsOk])
    | ok l =>
      simp only [get_edges_positions_go, edge_touches, hv, hm, hres, if_pos]
      rfl

/-- Claim C5: on a graph whose edges were all produced by parsing L-lines
(so each edge record has a `start` value and an `end` key but no `stop`
key), `get_edges(name)` and `get_edges_positions(name)` raise `KeyError`
(they read the second endpoint under the key `stop`) as soon as at least
one edge's `start` differs from the queried name, and return normally
exactly when every edge's `start` equals the queried name. -/
theorem get_edges_keyerror_iff (g : Graph) (name : String)
    (hparsed : ∀ r ∈ g.lines, (dget r.datas "start").isSome = true ∧
      (dget r.datas "end").isSome = true ∧ dget r.datas "stop" = none) :
    ((∃ r ∈ g.lines, ∀ v, dget r.datas "start" = some v → pyEq (.str name) v = false) →
      get_edges g (.str name) = .error "KeyError: stop" ∧
      get_edges_positions g (.str name) = .error "KeyError: stop") ∧
    ((∀ r ∈ g.lines, ∃ v, dget r.datas "start" = some v ∧ pyEq (.str name) v = true) →
      exceptIsOk (get_edges g (.str name)) = true ∧
      exceptIsOk (get_edges_positions g (.str name)) = true) := by
  have hp : ∀ r ∈ g.lines, (dget r.datas "start").isSome = true ∧
      dget r.datas "stop" = none :=
    fun r hr => ⟨(hparsed r hr).1, (hparsed r hr).2.2⟩
  constructor
  · intro hex
    exact ⟨get_edges_go_error name g.lines hp hex,
      get_edges_positions_go_error name g.lines hp hex 0⟩
  · intro hall
    exact ⟨get_edges_go_ok name g.lines hall,
      get_edges_positions_go_ok name g.lines hall 0⟩

/-- Claim C5 witness: on a graph with a single L-line edge from 1 to 2,
querying the edges of 2 raises the `stop` KeyError. -/
theorem get_edges_keyerror_witness :
    get_edges gOneEdge (PyVal.str "2") = .error "KeyError: stop" :=
  ((get_edges_keyerror_iff gOneEdge "2"
      (by
        intro r hr
        have hr2 : r = ⟨[("start", PyVal.str "1"), ("end", PyVal.str "2"),
            ("orientation", PyVal.str "+/+")]⟩ := List.mem_singleton.mp hr
        subst hr2
        exact ⟨rfl, rfl, rfl⟩)).1
    ⟨⟨[("start", PyVal.str "1"), ("end", PyVal.str "2"),
        ("orientation", PyVal.str "+/+")]⟩,
      List.mem_cons_self _ _,
      fun v hv => by
        have h2 : PyVal.str "1" = v := Option.some.inj hv
        rw [← h2]
        rfl⟩).1

/-- Claim C8 (amended): for the tag type letters i, f, A and Z, decoding
the serializer's rendered text of a value of the matching kind gives the
value back (`gtype t (str v) = v`).  For the letter J the round trip fails
(see the counterexample): the serializer renders structured values with
Python `str()`, not `json.dumps`, so the J decoder rejects them. -/
theorem tag_codec_roundtrip_prim :
    ∀ (t : Char) (v : PyVal), (t = 'i' ∨ t = 'f' ∨ t = 'A' ∨ t = 'Z') →
      kind_matches t v → gtype t (pyStr v) = .ok v := by
  intro t v ht hk
  rcases ht with h | h | h | h <;> subst h
  · cases v with
    | int n =>
      show (match intParse (intReprStr n) with
        | some m => Except.ok (PyVal.int m)
        | none => Except.error "ValueError: invalid literal for int") = Except.ok (PyVal.int n)
      rw [intParse_intReprStr n]
    | float f => exact hk.elim
    | str s => exact hk.elim
    | json j => exact hk.elim
    | path p => exact hk.elim
  · cases v with
    | float f => rfl
    | int n => exact hk.elim
    | str s => exact hk.elim
    | json j => exact hk.elim
    | path p => exact hk.elim
  · cases v with
    | str s => rfl
    | int n => exact hk.elim
    | float f => exact hk.elim
    | json j => exact hk.elim
    | path p => exact hk.elim
  · cases v with
    | str s => rfl
    | int n => exact hk.elim
    | float f => exact hk.elim
    | json j => exact hk.elim
    | path p => exact hk.elim

/-- Claim C8 witness: the i round trip at the value 37. -/
theorem tag_codec_roundtrip_prim_witness :
    gtype 'i' (pyStr (PyVal.int 37)) = .ok (PyVal.int 37) :=
  tag_codec_roundtrip_prim 'i' (PyVal.int 37) (Or.inl rfl) True.intro

/-- A matched tag token's key has exactly two characters. -/
theorem tagKey_length (t : String) (h : tagMatch t = true) : (tagKey t).length = 2 := by
  unfold tagMatch at h
  unfold tagKey
  rcases hv : t.toList with _ | ⟨c1, _ | ⟨c2, _ | ⟨c3, _ | ⟨c4, _ | ⟨c5, rest⟩⟩⟩⟩⟩ <;>
    rw [hv] at h <;> simp_all [String.length]

/-- Synthetic `ARG` keys have at least four characters. -/
theorem argKey_length (n : Nat) : 4 ≤ ("ARG" ++ natRepr n).length := by
  have hne := natDigits_ne_nil n
  have hlen : 1 ≤ (natDigits n).length := by
    cases h : natDigits n with
    | nil => exact absurd h hne
    | cons c t => simp
  rw [String.length_append]
  have h1 : (natRepr n).length = (natDigits n).length := rfl
  have h2 : ("ARG" : String).length = 3 := rfl
  omega

/-- A synthetic `ARG` key never collides with a matched tag token's
two-character key. -/
theorem argKey_ne_tagKey (n : Nat) (t : String) (h : tagMatch t = true) :
    ("ARG" ++ natRepr n) ≠ tagKey t := by
  intro he
  have h1 := argKey_length n
  rw [he, tagKey_length t h] at h1
  omega

/-- Synthetic `ARG` keys of distinct counter values are distinct. -/
theorem argKey_inj (a b : Nat) (h : "ARG" ++ natRepr a = "ARG" ++ natRepr b) : a = b := by
  have hd := congrArg String.data h
  rw [String.data_append, String.data_append] at hd
  have hd2 : ("ARG".data ++ (natDigits a)) = ("ARG".data ++ (natDigits b)) := hd
  have hd3 : natDigits a = natDigits b := List.append_cancel_left hd2
  exact natRepr_inj a b (congrArg String.mk hd3)

/-- A matched head token does not advance the unmatched count. -/
theorem countUnmatched_cons_matched (t : String) (ts : List String)
    (h : tagMatch t = true) : countUnmatched (t :: ts) = countUnmatched ts := by
  simp [countUnmatched, h]

/-- An unmatched head token advances the unmatched count by one. -/
theorem countUnmatched_cons_unmatched (t : String) (ts : List String)
    (h : tagMatch t = false) : countUnmatched (t :: ts) = countUnmatched ts + 1 := by
  simp [countUnmatched, h]

/-- Inductive characterization of the `supplementary_datas` loop, with the
accumulator generalized: when every matched token decodes and the matched
keys are distinct, the loop succeeds; a matched token ends up under its
two-letter key with its decoded value, the `j`-th trailing token, when
unmatched, ends up under `ARG(n + number of unmatched tokens before it)`
as a raw string, and keys written by neither case are read from the
accumulator. -/
theorem supp_go_spec :
    ∀ (ts : List String) (n : Nat) (m0 : List (String × PyVal)),
      (∀ t ∈ ts, tagMatch t = true →
        exceptIsOk (gtype (tagTypeChar t) (tagValue t)) = true) →
      ((ts.filter tagMatch).map tagKey).Nodup →
      ∃ m, supp_go ts n m0 = .ok m ∧
        (∀ j t, ts[j]? = some t →
          (tagMatch t = true →
            dget m (tagKey t) = (gtype (tagTypeChar t) (tagValue t)).toOption) ∧
          (tagMatch t = false →
            dget m ("ARG" ++ natRepr (n + countUnmatched (ts.take j))) = some (.str t))) ∧
        (∀ k, (∀ t ∈ ts, tagMatch t = true → k ≠ tagKey t) →
          (∀ i, n ≤ i → i < n + countUnmatched ts → k ≠ "ARG" ++ natRepr i) →
          dget m k = dget m0 k) := by
  intro ts
  induction ts with
  | nil =>
    intro n m0 _ _
    exact ⟨m0, rfl, fun j t hj => by simp at hj, fun k _ _ => rfl⟩
  | cons t ts ih =>
    intro n m0 hdec hnd
    have hdec2 : ∀ t2 ∈ ts, tagMatch t2 = true →
        exceptIsOk (gtype (tagTypeChar t2) (tagValue t2)) = true :=
      fun t2 h2 => hdec t2 (List.mem_cons_of_mem t h2)
    by_cases hm : tagMatch t = true
    · obtain ⟨v, hv⟩ : ∃ v, gtype (tagTypeChar t) (tagValue t) = .ok v := by
        have hok := hdec t (List.mem_cons_self t ts) hm
        cases hg : gtype (tagTypeChar t) (tagValue t) with
        | ok v => exact ⟨v, rfl⟩
        | error e => rw [hg] at hok; exact absurd hok (by simp [exceptIsOk])
      have hfilter : (t :: ts).filter tagMatch = t :: ts.filter tagMatch := by
        simp [List.filter_cons, hm]
      rw [hfilter, List.map_cons, List.nodup_cons] at hnd
      obtain ⟨m, hrun, hchar, huntouched⟩ := ih n (dset m0 (tagKey t) v) hdec2 hnd.2
      refine ⟨m, ?_, ?_, ?_⟩
      · simp [supp_go, hm, hv, hrun]
      · intro j t2 hj
        cases j with
        | zero =>
          have ht2 : t2 = t := by simpa using hj.symm
          subst ht2
          constructor
          · intro _
            have h1 : dget m (tagKey t2) = dget (dset m0 (tagKey t2) v) (tagKey t2) := by
              apply huntouched
              · intro t3 h3 hm3 heq
                exact hnd.1
                  (heq ▸ List.mem_map_of_mem tagKey (List.mem_filter.mpr ⟨h3, hm3⟩))
              · intro i _ _ heq
                exact argKey_ne_tagKey i t2 hm heq.symm
            rw [h1, dget_dset_self, hv]
            rfl
          · intro hf
            rw [hf] at hm
            cases hm
        | succ j2 =>
          have hj2 : ts[j2]? = some t2 := by simpa using hj
          have hc := hchar j2 t2 hj2
          refine ⟨hc.1, ?_⟩
          intro hf
          have hcount : countUnmatched ((t :: ts).take (j2 + 1)) =
              countUnmatched (ts.take j2) := by
            rw [List.take_succ_cons]
            exact countUnmatched_cons_matched t _ hm
          rw [hcount]
          exact hc.2 hf
      · intro k hk1 hk2
        have h1 : dget m k = dget (dset m0 (tagKey t) v) k := by
          apply huntouched
          · intro t3 h3 hm3
            exact hk1 t3 (List.mem_cons_of_mem t h3) hm3
          · intro i hi1 hi2
            apply hk2 i hi1
            rw [countUnmatched_cons_matched t ts hm]
            exact hi2
        rw [h1, dget_dset_ne]
        exact Ne.symm (hk1 t (List.mem_cons_self t ts) hm)
    · have hmf : tagMatch t = false := by
        revert hm
        cases tagMatch t <;> simp
      have hfilter : (t :: ts).filter tagMatch = ts.filter tagMatch := by
        simp [List.filter_cons, hmf]
      rw [hfilter] at hnd
      obtain ⟨m, hrun, hchar, huntouched⟩ :=
        ih (n + 1) (dset m0 ("ARG" ++ natRepr n) (.str t)) hdec2 hnd
      refine ⟨m, ?_, ?_, ?_⟩
      · simp [supp_go, hmf, hrun]
      · intro j t2 hj
        cases j with
        | zero =>
          have ht2 : t2 = t := by simpa using hj.symm
          subst ht2
          constructor
          · intro hf
            rw [hf] at hmf
            cases hmf
          · intro _
            have hc0 : countUnmatched ((t2 :: ts).take 0) = 0 := rfl
            rw [hc0, Nat.add_zero]
            have h1 : dget m ("ARG" ++ natRepr n) =
                dget (dset m0 ("ARG" ++ natRepr n) (.str t2)) ("ARG" ++ natRepr n) := by
              apply huntouched
              · intro t3 h3 hm3
                exact argKey_ne_tagKey n t3 hm3
              · intro i hi1 _ heq
                have := argKey_inj n i heq
                omega
            rw [h1, dget_dset_self]
        | succ j2 =>
          have hj2 : ts[j2]? = some t2 := by simpa using hj
          have hc := hchar j2 t2 hj2
          refine ⟨hc.1, ?_⟩
          intro hf
          have hcount : n + countUnmatched ((t :: ts).take (j2 + 1)) =
              (n + 1) + countUnmatched (ts.take j2) := by
            rw [List.take_succ_cons, countUnmatched_cons_unmatched t _ hmf]
            omega
          rw [hcount]
          exact hc.2 hf
      · intro k hk1 hk2
        have hcn : countUnmatched (t :: ts) = countUnmatched ts + 1 :=
          countUnmatched_cons_unmatched t ts hmf
        have h1 : dget m k = dget (dset m0 ("ARG" ++ natRepr n) (.str t)) k := by
          apply huntouched
          · intro t3 h3 hm3
            exact hk1 t3 (List.mem_cons_of_mem t h3) hm3
          · intro i hi1 hi2
            apply hk2 i (by omega)
            omega
        rw [h1, dget_dset_ne]
        exact Ne.symm (hk2 n (Nat.le_refl n) (by omega))

/-- Claim C10: for every parsed line, each trailing token beyond the
fixed-field count is stored under its two-letter tag key with its
Tag-Codec-decoded value when it matches the tag pattern, and otherwise
under the synthetic key `ARG n` as a raw string, where `n` starts at the
fixed-field count and advances by one for each unmatched trailing token
only.  (Stated under the hypotheses that every matched token decodes and
that the matched keys are distinct — with duplicate keys the later token
overwrites.) -/
theorem supplementary_datas_spec (datas : List String) (L : Nat)
    (hdec : ∀ t ∈ datas.drop L, tagMatch t = true →
      exceptIsOk (gtype (tagTypeChar t) (tagValue t)) = true)
    (hkeys : (((datas.drop L).filter tagMatch).map tagKey).Nodup) :
    ∃ m, supplementary_datas datas L = .ok m ∧
      ∀ j t, (datas.drop L)[j]? = some t →
        (tagMatch t = true →
          dget m (tagKey t) = (gtype (tagTypeChar t) (tagValue t)).toOption) ∧
        (tagMatch t = false →
          dget m ("ARG" ++ natRepr (L + countUnmatched ((datas.drop L).take j))) =
            some (.str t)) := by
  obtain ⟨m, hrun, hchar, _⟩ := supp_go_spec (datas.drop L) L [] hdec hkeys
  exact ⟨m, hrun, hchar⟩

/-- Claim C10 witness: on a line whose trailing tokens past the
fixed-field count 7 are the tag `AB:i:7` and the free token `raw`, the
mapping holds 7 decoded under `AB` and the raw token under `ARG7`. -/
theorem supplementary_datas_witness :
    ∃ m, supplementary_datas demoDatas 7 = .ok m ∧
      dget m "AB" = some (PyVal.int 7) ∧ dget m "ARG7" = some (PyVal.str "raw") := by
  obtain ⟨m, hrun, hchar⟩ := supplementary_datas_spec demoDatas 7
    (by decide) (by decide)
  refine ⟨m, hrun, ?_, ?_⟩
  · have h1 := (hchar 0 "AB:i:7" rfl).1 rfl
    simpa using h1
  · have h2 := (hchar 1 "raw" rfl).2 rfl
    simpa using h2

/-- Name comparisons in the path scans are plain string equality. -/
theorem pyEq_str (a b : String) : pyEq (.str a) (.str b) = (a == b) := rfl

/-- With two distinct names, the combined start/end scan of the merge path
edit computes the two independent last-occurrence indices. -/
theorem merge_path_bounds_eq (L R : String) (hne : L ≠ R) :
    ∀ (es : List (String × Orientation)) (i s e : Nat),
      merge_path_bounds_go (.str L) (.str R) es i s e =
        (last_occurrence_or_zero L es i s, last_occurrence_or_zero R es i e) := by
  intro es
  induction es with
  | nil => intro i s e; rfl
  | cons nv t ih =>
    intro i s e
    by_cases hL : nv.1 = L
    · have h3 : (nv.1 == L) = true := beq_iff_eq.mpr hL
      have h2 : (nv.1 == R) = false := by
        rw [hL]
        exact beq_eq_false_iff_ne.mpr hne
      simp only [merge_path_bounds_go, last_occurrence_or_zero, pyEq_str, h3, h2,
        if_true, if_false]
      exact ih (i + 1) i e
    · have h3 : (nv.1 == L) = false := beq_eq_false_iff_ne.mpr hL
      by_cases hR : nv.1 = R
      · have h4 : (nv.1 == R) = true := beq_iff_eq.mpr hR
        simp only [merge_path_bounds_go, last_occurrence_or_zero, pyEq_str, h3, h4,
          if_true, if_false]
        exact ih (i + 1) s i
      · have h4 : (nv.1 == R) = false := beq_eq_false_iff_ne.mpr hR
        simp only [merge_path_bounds_go, last_occurrence_or_zero, pyEq_str, h3, h4,
          if_true, if_false]
        exact ih (i + 1) s e

/-- With two distinct names, the code's merge path edit equals the amended
claim's transformation. -/
theorem merge_path_edit_eq_spec (L R : String) (hne : L ≠ R)
    (es : List (String × Orientation)) :
    merge_path_edit (.str L) (.str R) es = merge_path_edit_spec L R es := by
  unfold merge_path_edit merge_path_edit_spec
  rw [merge_path_bounds_eq L R hne es 0 0 0]
  by_cases h1 : last_occurrence_or_zero L es 0 0 = 0
  · simp [h1]
  · by_cases h2 : last_occurrence_or_zero R es 0 0 = 0
    · simp [h1, h2]
    · simp [h1, h2]

/-- A successful sequential merge path edit maps the per-record edit over
the list (accumulator-generalized). -/
theorem merge_edit_paths_go_eq (ln rn : PyVal) :
    ∀ (rs acc ps : List Rec),
      merge_edit_paths_go ln rn rs acc = (ps, none) →
      ps = acc.reverse ++ rs.map (merge_edit_rec ln rn) := by
  intro rs
  induction rs with
  | nil =>
    intro acc ps h
    simp only [merge_edit_paths_go, Prod.mk.injEq] at h
    simp [← h.1]
  | cons r rs ih =>
    intro acc ps h
    cases hd : dget r.datas "path" with
    | none =>
      simp only [merge_edit_paths_go, hd, Prod.mk.injEq] at h
      exact absurd h.2 (by simp)
    | some v =>
      cases v with
      | path es =>
        simp only [merge_edit_paths_go, hd] at h
        have h2 := ih (⟨dset r.datas "path" (.path (merge_path_edit ln rn es))⟩ :: acc) ps h
        rw [h2]
        simp [merge_edit_rec, hd]
      | int n =>
        simp only [merge_edit_paths_go, hd, Prod.mk.injEq] at h
        exact absurd h.2 (by simp)
      | float f =>
        simp only [merge_edit_paths_go, hd, Prod.mk.injEq] at h
        exact absurd h.2 (by simp)
      | str s =>
        simp only [merge_edit_paths_go, hd, Prod.mk.injEq] at h
        exact absurd h.2 (by simp)
      | json j =>
        simp only [merge_edit_paths_go, hd, Prod.mk.injEq] at h
        exact absurd h.2 (by simp)

/-- A successful `merge_segments_rest` run applies the per-record merge
path edit to every path and walk record, with the names it read from the
segments at the left-most and right-most positions. -/
theorem merge_segments_rest_success (g2 : Graph) (positions : List Nat) (p0 plast : Nat)
    (hrun : (merge_segments_rest g2 positions p0 plast).2 = none) :
    ∃ ln rn,
      (g2.segments[plast]?).bind (fun r => dget r.datas "name") = some rn ∧
      (g2.segments[p0]?).bind (fun r => dget r.datas "name") = some ln ∧
      (merge_segments_rest g2 positions p0 plast).1.paths =
        g2.paths.map (merge_edit_rec ln rn) ∧
      (merge_segments_rest g2 positions p0 plast).1.walks =
        g2.walks.map (merge_edit_rec ln rn) := by
  cases h1 : g2.segments[plast]? with
  | none => simp [merge_segments_rest, h1] at hrun
  | some right2 =>
  cases h2 : dget right2.datas "name" with
  | none => simp [merge_segments_rest, h1, h2] at hrun
  | some rn =>
  cases h3 : get_edges_positions_go rn g2.lines 0 with
  | error e => simp [merge_segments_rest, h1, h2, h3] at hrun
  | ok eps =>
  cases h4 : g2.segments[p0]? with
  | none => simp [merge_segments_rest, h1, h2, h3, h4] at hrun
  | some left2 =>
  cases h5 : dget left2.datas "name" with
  | none => simp [merge_segments_rest, h1, h2, h3, h4, h5] at hrun
  | some ln =>
  cases h6 : merge_redirect_go rn ln eps g2.lines with
  | mk ls err =>
  cases err with
  | some e => simp [merge_segments_rest, h1, h2, h3, h4, h5, h6] at hrun
  | none =>
  cases h7 : merge_deletions g2.segments ls (positions.tail.dropLast) with
  | error e => simp [merge_segments_rest, h1, h2, h3, h4, h5, h6, h7] at hrun
  | ok dels =>
  cases h8 : merge_edit_paths_go ln rn g2.paths [] with
  | mk ps perr =>
  cases perr with
  | some e => simp [merge_segments_rest, h1, h2, h3, h4, h5, h6, h7, h8] at hrun
  | none =>
  cases h9 : merge_edit_paths_go ln rn g2.walks [] with
  | mk ws werr =>
  cases werr with
  | some e => simp [merge_segments_rest, h1, h2, h3, h4, h5, h6, h7, h8, h9] at hrun
  | none =>
    refine ⟨ln, rn, ?_, ?_, ?_, ?_⟩
    · simpa using h2
    · simpa using h5
    · have hps : ps = g2.paths.map (merge_edit_rec ln rn) := by
        simpa using merge_edit_paths_go_eq ln rn g2.paths [] ps h8
      simp only [merge_segments_rest, h1, h2, h3, h4, h5, h6, List.drop_one, h7, h8, h9]
      exact hps
    · have hws : ws = g2.walks.map (merge_edit_rec ln rn) := by
        simpa using merge_edit_paths_go_eq ln rn g2.walks [] ws h9
      simp only [merge_segments_rest, h1, h2, h3, h4, h5, h6, List.drop_one, h7, h8, h9]
      exact hws

/-- Element lookup after two in-place updates of the same position. -/
theorem getElem?_set_set_self (l : List Rec) (i : Nat) (a b : Rec) (h : i < l.length) :
    ((l.set i a).set i b)[i]? = some b := by
  rw [List.getElem?_set_self]
  rwa [List.length_set]

/-- The merge updates of the left segment's `length` and `seq` fields do
not change its `name`. -/
theorem dget_name_after_update (d : List (String × PyVal)) (x y : PyVal) :
    dget (dset (dset d "length" x) "seq" y) "name" = dget d "name" := by
  rw [dget_dset_ne _ _ _ _ (by decide), dget_dset_ne _ _ _ _ (by decide)]

/-- A successful `merge_segments` run applies the per-record merge path
edit, with the left-most and right-most operand names, to every path and
walk record of the graph. -/
theorem merge_segments_success_paths (g : Graph) (segs : List String)
    (hrun : (merge_segments g segs).2 = none) :
    ∃ ln rn, merge_left_name g segs = some ln ∧ merge_right_name g segs = some rn ∧
      (merge_segments g segs).1.paths = g.paths.map (merge_edit_rec ln rn) ∧
      (merge_segments g segs).1.walks = g.walks.map (merge_edit_rec ln rn) := by
  cases h1 : merge_sort_keys segs with
  | error e => simp [merge_segments, h1] at hrun
  | ok sorted =>
  cases h2 : merge_resolve g sorted with
  | error e => simp [merge_segments, h1, h2] at hrun
  | ok positions =>
  cases h3 : positions[0]? with
  | none => simp [merge_segments, h1, h2, h3] at hrun
  | some p0 =>
  cases h4 : positions.getLast? with
  | none => simp [merge_segments, h1, h2, h3, h4] at hrun
  | some plast =>
  cases h5 : g.segments[p0]? with
  | none => simp [merge_segments, h1, h2, h3, h4, h5] at hrun
  | some left0 =>
  cases h6 : dget left0.datas "length" with
  | none => simp [merge_segments, h1, h2, h3, h4, h5, h6] at hrun
  | some lv =>
  cases h7 : merge_sum_lengths g.segments positions.tail with
  | error e => simp [merge_segments, h1, h2, h3, h4, h5, h6, h7] at hrun
  | ok total =>
  cases lv with
  | float f => simp [merge_segments, h1, h2, h3, h4, h5, h6, h7] at hrun
  | str s => simp [merge_segments, h1, h2, h3, h4, h5, h6, h7] at hrun
  | json j => simp [merge_segments, h1, h2, h3, h4, h5, h6, h7] at hrun
  | path pp => simp [merge_segments, h1, h2, h3, h4, h5, h6, h7] at hrun
  | int ln0 =>
  have hp0lt : p0 < g.segments.length := (List.getElem?_eq_some.mp h5).1
  by_cases h8 : dmem left0.datas "seq" = true
  · cases h9 : merge_collect_seqs
        (g.segments.set p0 ⟨dset left0.datas "length" (.int (ln0 + total))⟩) positions with
    | error e => simp [merge_segments, h1, h2, h3, h4, h5, h6, h7, h8, h9] at hrun
    | ok ss =>
      simp only [merge_segments, h1, h2, h3, h4, h5, h6, h7, h8, List.drop_one, h9,
        if_true] at hrun
      obtain ⟨ln, rn, hrn, hln, hpaths, hwalks⟩ :=
        merge_segments_rest_success _ positions p0 plast hrun
      have hget : ((g.segments.set p0 ⟨dset left0.datas "length" (.int (ln0 + total))⟩).set p0
          ⟨dset (dset left0.datas "length" (.int (ln0 + total))) "seq"
            (.str (String.join ss))⟩)[p0]? =
          some ⟨dset (dset left0.datas "length" (.int (ln0 + total))) "seq"
            (.str (String.join ss))⟩ :=
        getElem?_set_set_self _ _ _ _ hp0lt
      refine ⟨ln, rn, ?_, ?_, ?_, ?_⟩
      · simp only [merge_left_name, h1, h2, h3, h5, Option.some_bind]
        rw [hget, Option.some_bind] at hln
        rw [← dget_name_after_update left0.datas (.int (ln0 + total)) (.str (String.join ss))]
        exact hln
      · simp only [merge_right_name, h1, h2, h4]
        by_cases hpp : plast = p0
        · subst hpp
          rw [hget, Option.some_bind] at hrn
          rw [h5, Option.some_bind,
            ← dget_name_after_update left0.datas (.int (ln0 + total)) (.str (String.join ss))]
          exact hrn
        · rw [List.getElem?_set_ne (fun he => hpp he.symm),
            List.getElem?_set_ne (fun he => hpp he.symm)] at hrn
          exact hrn
      · simp only [merge_segments, h1, h2, h3, h4, h5, h6, h7, h8, List.drop_one, h9, if_true]
        simpa using hpaths
      · simp only [merge_segments, h1, h2, h3, h4, h5, h6, h7, h8, List.drop_one, h9, if_true]
        simpa using hwalks
  · have h8f : dmem left0.datas "seq" = false := by
      revert h8
      cases dmem left0.datas "seq" <;> simp
    simp only [merge_segments, h1, h2, h3, h4, h5, h6, h7, h8f, List.drop_one,
      Bool.false_eq_true, if_false] at hrun
    obtain ⟨ln, rn, hrn, hln, hpaths, hwalks⟩ :=
      merge_segments_rest_success _ positions p0 plast hrun
    have hget : ((g.segments.set p0 ⟨dset left0.datas "length" (.int (ln0 + total))⟩))[p0]? =
        some ⟨dset left0.datas "length" (.int (ln0 + total))⟩ :=
      List.getElem?_set_self hp0lt
    refine ⟨ln, rn, ?_, ?_, ?_, ?_⟩
    · simp only [merge_left_name, h1, h2, h3, h5, Option.some_bind]
      rw [hget, Option.some_bind] at hln
      rw [← dget_dset_ne left0.datas "length" "name" (.int (ln0 + total)) (by decide)]
      exact hln
    · simp only [merge_right_name, h1, h2, h4]
      by_cases hpp : plast = p0
      · subst hpp
        rw [hget, Option.some_bind] at hrn
        rw [h5, Option.some_bind,
          ← dget_dset_ne left0.datas "length" "name" (.int (ln0 + total)) (by decide)]
        exact hrn
      · rw [List.getElem?_set_ne (fun he => hpp he.symm)] at hrn
        exact hrn
    · simp only [merge_segments, h1, h2, h3, h4, h5, h6, h7, h8f, List.drop_one,
        Bool.false_eq_true, if_false]
      simpa using hpaths
    · simp only [merge_segments, h1, h2, h3, h4, h5, h6, h7, h8f, List.drop_one,
        Bool.false_eq_true, if_false]
      simpa using hwalks

/-- Claim C2 (amended): on every successful `merge_segments` call whose
left-most and right-most operand names L and R differ, every path and walk
record is transformed as follows: with s and e the LAST indices at which L
and R occur among the element names (0 when absent — Python truthiness
conflates an occurrence at index 0 with absence), if both s and e are
nonzero the elements from `min s e` up to but EXCLUDING `max s e` are
removed — so the occurrence at the earlier position is dropped, not kept —
and otherwise (a name missing, or its relevant occurrence at index 0) the
record's path is left unchanged. -/
theorem merge_segments_path_edit (g : Graph) (segs : List String) (L R : String)
    (hrun : (merge_segments g segs).2 = none)
    (hL : merge_left_name g segs = some (PyVal.str L))
    (hR : merge_right_name g segs = some (PyVal.str R))
    (hne : L ≠ R) :
    (∀ (j : Nat) (r : Rec) (es : List (String × Orientation)),
      g.paths[j]? = some r → dget r.datas "path" = some (.path es) →
      ∃ r2 : Rec, (merge_segments g segs).1.paths[j]? = some r2 ∧
        dget r2.datas "path" = some (.path (merge_path_edit_spec L R es))) ∧
    (∀ (j : Nat) (r : Rec) (es : List (String × Orientation)),
      g.walks[j]? = some r → dget r.datas "path" = some (.path es) →
      ∃ r2 : Rec, (merge_segments g segs).1.walks[j]? = some r2 ∧
        dget r2.datas "path" = some (.path (merge_path_edit_spec L R es))) := by
  obtain ⟨ln, rn, hL2, hR2, hpaths, hwalks⟩ := merge_segments_success_paths g segs hrun
  rw [hL] at hL2
  rw [hR] at hR2
  have hlnv : ln = PyVal.str L := (Option.some_inj.mp hL2).symm
  have hrnv : rn = PyVal.str R := (Option.some_inj.mp hR2).symm
  subst hlnv hrnv
  constructor
  · intro j r es hj hd
    refine ⟨merge_edit_rec (.str L) (.str R) r, ?_, ?_⟩
    · rw [hpaths, List.getElem?_map, hj]
      rfl
    · unfold merge_edit_rec
      rw [hd, dget_dset_self, merge_path_edit_eq_spec L R hne]
  · intro j r es hj hd
    refine ⟨merge_edit_rec (.str L) (.str R) r, ?_, ?_⟩
    · rw [hwalks, List.getElem?_map, hj]
      rfl
    · unfold merge_edit_rec
      rw [hd, dget_dset_self, merge_path_edit_eq_spec L R hne]

/-- Claim C2 witness: merging 1, 2, 3 on the graph with path 9, 1, 2, 3
succeeds and the theorem yields the edited path 9, 3. -/
theorem merge_segments_path_edit_witness :
    ((merge_segments gMergePath ["1", "2", "3"]).1.paths[0]?.map
      (fun r2 => dget r2.datas "path")) =
      some (some (.path [("9", Orientation.FORWARD), ("3", Orientation.FORWARD)])) := by
  obtain ⟨r2, hr2, hd2⟩ :=
    (merge_segments_path_edit gMergePath ["1", "2", "3"] "1" "3" rfl rfl rfl
      (by decide)).1 0
      ⟨[("name", .str "pm"),
        ("path", .path [("9", .FORWARD), ("1", .FORWARD), ("2", .FORWARD), ("3", .FORWARD)])]⟩
      [("9", .FORWARD), ("1", .FORWARD), ("2", .FORWARD), ("3", .FORWARD)] rfl rfl
  rw [hr2]
  show some (dget r2.datas "path") = _
  rw [hd2]
  rfl

end gfagraphs

